import Mathlib

/-!
Shallow embedding of the request-building core of `httpexpect`
(`src/request.go`) together with proofs about it.

Conventions used throughout:
* Go strings are Lean `String`s; byte lengths (`len(...)` in Go) are
  modelled with `String.utf8ByteSize`, which is exactly the length of the
  UTF-8 encoding Go uses.
* `interface{}` arguments that the Go code immediately converts with
  `fmt.Sprint` are modelled as the resulting `String`; `nil` interface
  values are modelled with `Option`.
* Results of external encoders (`json.Marshal`, `form.EncodeToValues`,
  `query.Values`) are modelled as `Except String _` arguments: the
  external library is a collaborator, only the use of its result is code
  of this repository.
* `%q`/`%v` formatting is modelled by plain quoting/concatenation; the
  identifying parts of every failure message (the setter labels, header
  values, quoted texts) are kept verbatim.
-/

/-- Modelled from the spec: the sticky failure chain lives in `chain.go`,
which is not under `src/`.  Per spec section 4.6 it holds a failed flag and
the first failure's formatted message; once failed it accepts no further
messages. -/
structure Chain where
  failed : Bool
  message : String
deriving DecidableEq, Repr

/-- Modelled from the spec: recording a failure on the chain keeps the first
message (spec section 4.6: "The first recorded failure is the one that is
ultimately surfaced; once failed, the chain accepts no further messages"). -/
def Chain.fail (c : Chain) (msg : String) : Chain :=
  if c.failed then c else { failed := true, message := msg }

/-- Fresh chain, as created by `makeChain` for a new request. -/
def freshChain : Chain := { failed := false, message := "" }

/-- Matcher callbacks are opaque collaborator values; their code never reads
or writes request state, so they are modelled as a field-less structure. -/
structure Matcher where
deriving DecidableEq, Repr

/-- A request body slot: either concrete bytes handed to `setBody` through a
reader, or the shared multipart form buffer (`r.formbuf`). -/
inductive BodyVal where
  | content (s : String)
  | formbufRef
deriving DecidableEq, Repr

/-- Response object produced by the transport collaborators; only its
existence and identity matter to the request core. -/
structure HttpResponse where
  statusCode : Nat
deriving DecidableEq, Repr

/-- Connection handle returned by the websocket dialer collaborator. -/
structure WsConnHandle where
deriving DecidableEq, Repr

/-- Byte-wise (code-point-wise) lexicographic order on strings, matching
Go's `sort.Strings` comparison on the ASCII data used here. -/
def charListLe : List Char → List Char → Bool
  | [], _ => true
  | _ :: _, [] => false
  | a :: as, b :: bs =>
      if a.toNat < b.toNat then true
      else if b.toNat < a.toNat then false
      else charListLe as bs

def strLe (a b : String) : Bool := charListLe a.toList b.toList

/-- Insert into a sorted list, keeping `strLe` order (stable, like Go's
`sort.Strings` on distinct keys). -/
def sortedInsert (x : String) : List String → List String
  | [] => [x]
  | y :: ys => if strLe x y then x :: y :: ys else y :: sortedInsert x ys

/-- Insertion sort used to model `sort.Strings` on url.Values keys. -/
def sortStrings : List String → List String
  | [] => []
  | x :: xs => sortedInsert x (sortStrings xs)

/-- Boolean test that `needle` occurs as a prefix of `hay`. -/
def charListPre : List Char → List Char → Bool
  | [], _ => true
  | _ :: _, [] => false
  | a :: as, b :: bs => a == b && charListPre as bs

/-- Boolean test that `needle` occurs as a contiguous substring of `hay`. -/
def charListSub (needle : List Char) : List Char → Bool
  | [] => needle.isEmpty
  | c :: cs => charListPre needle (c :: cs) || charListSub needle cs

/-- `strContainsSub hay needle` holds when `needle` occurs verbatim inside
`hay`; used to state that a failure message cites a given call name. -/
def strContainsSub (hay needle : String) : Bool :=
  charListSub needle.toList hay.toList

/-- Hexadecimal digit for percent-encoding, uppercase as in Go's
`net/url` escaping. -/
def hexDigit (n : Nat) : Char :=
  if n < 10 then Char.ofNat (48 + n) else Char.ofNat (55 + n)

/-- Value of a hexadecimal digit character, if any (Go `net/url.unhex`). -/
def unhexDigit (c : Char) : Option Nat :=
  if 48 ≤ c.toNat ∧ c.toNat ≤ 57 then some (c.toNat - 48)
  else if 97 ≤ c.toNat ∧ c.toNat ≤ 102 then some (c.toNat - 87)
  else if 65 ≤ c.toNat ∧ c.toNat ≤ 70 then some (c.toNat - 55)
  else none

/-- Characters `net/url` leaves unescaped in a query component:
alphanumerics and `-._~`. -/
def isUnreservedQueryChar (c : Char) : Bool :=
  c.isAlphanum || c == '-' || c == '_' || c == '.' || c == '~'

/-- Go `url.QueryEscape` on one character (code points are treated as
bytes; the repository only feeds ASCII through this path). -/
def queryEscapeChar (c : Char) : List Char :=
  if isUnreservedQueryChar c then [c]
  else if c == ' ' then ['+']
  else ['%', hexDigit (c.toNat / 16 % 16), hexDigit (c.toNat % 16)]

/-- Go `url.QueryEscape`. -/
def queryEscape (s : String) : String :=
  String.mk (s.toList.flatMap queryEscapeChar)

/-- Go `url.QueryUnescape` on a character list: decodes `%XX` and `+`. -/
def queryUnescapeChars : List Char → Option (List Char)
  | [] => some []
  | '%' :: h :: l :: rest => do
      let hi ← unhexDigit h
      let lo ← unhexDigit l
      let cs ← queryUnescapeChars rest
      pure (Char.ofNat (hi * 16 + lo) :: cs)
  | '%' :: _ => none
  | '+' :: rest => do
      let cs ← queryUnescapeChars rest
      pure (' ' :: cs)
  | c :: rest => do
      let cs ← queryUnescapeChars rest
      pure (c :: cs)

/-- Split a character list on a separator character (used for `&` and `=`
handling of `url.ParseQuery`). -/
def splitOnChar (sep : Char) : List Char → List (List Char)
  | [] => [[]]
  | c :: cs =>
      let rest := splitOnChar sep cs
      if c == sep then [] :: rest
      else match rest with
        | [] => [[c]]
        | r :: rs => (c :: r) :: rs

/-- Split one `key=value` chunk at the first `=` (Go keeps everything after
the first `=` in the value; a chunk without `=` has an empty value). -/
def splitKeyValue : List Char → List Char × List Char
  | [] => ([], [])
  | '=' :: rest => ([], rest)
  | c :: rest =>
      let (k, v) := splitKeyValue rest
      (c :: k, v)

/-- Ordered multivalued mapping modelling Go's `url.Values`
(`map[string][]string`); the list order stands in for the map's key set,
and every construction below keeps keys unique. -/
def Values := List (String × List String)
deriving DecidableEq, Repr

/-- Go `url.Values.Add`: append one value to the key's slice (`request.go`
uses it in `WithQuery`). -/
def Values.add (vs : Values) (k v : String) : Values :=
  match vs with
  | [] => [(k, [v])]
  | (k', l) :: rest =>
      if k' == k then (k', l ++ [v]) :: rest else (k', l) :: Values.add rest k v

/-- Go `r.query[k] = append(r.query[k], ws...)` for one key. -/
def Values.addAll (vs : Values) (k : String) (ws : List String) : Values :=
  match vs with
  | [] => [(k, ws)]
  | (k', l) :: rest =>
      if k' == k then (k', l ++ ws) :: rest else (k', l) :: Values.addAll rest k ws

/-- The `for k, v := range other { dst[k] = append(dst[k], v...) }` merge
loops of `WithQueryObject` and `WithQueryString`. -/
def Values.merge (vs other : Values) : Values :=
  other.foldl (fun acc kv => acc.addAll kv.1 kv.2) vs

/-- Slice stored under a key (empty when absent), i.e. Go `vs[k]`. -/
def Values.lookup (vs : Values) (k : String) : List String :=
  match vs with
  | [] => []
  | (k', l) :: rest => if k' == k then l else Values.lookup rest k

/-- Keys of the mapping, in insertion order. -/
def Values.keys (vs : Values) : List String := vs.map Prod.fst

/-- Go `url.Values.Encode`: keys sorted, each key/value pair percent-encoded
as `k=v`, pairs joined with `&`. -/
def Values.encode (vs : Values) : String :=
  String.intercalate "&"
    ((sortStrings vs.keys).flatMap fun k =>
      (vs.lookup k).map fun v => queryEscape k ++ "=" ++ queryEscape v)

/-- Key order in which `Values.encode` emits its pairs. -/
def Values.encodeKeyOrder (vs : Values) : List String := sortStrings vs.keys

/-- Go `url.ParseQuery`: split on `&`, split each chunk at the first `=`,
unescape both halves; any bad escape makes the whole call fail (the caller
then discards the partial result). Empty chunks are skipped. -/
def parseQueryChunks : List (List Char) → Values → Option Values
  | [], acc => some acc
  | chunk :: rest, acc =>
      if chunk.isEmpty then parseQueryChunks rest acc
      else
        let (k, v) := splitKeyValue chunk
        match queryUnescapeChars k, queryUnescapeChars v with
        | some k', some v' => parseQueryChunks rest (acc.add (String.mk k') (String.mk v'))
        | _, _ => none

def parseQuery (s : String) : Option Values :=
  parseQueryChunks (splitOnChar '&' s.toList) []

/-- Characters allowed in a header field name (`net/textproto`
`validHeaderFieldByte`): alphanumerics and the RFC 7230 token specials. -/
def isTokenChar (c : Char) : Bool :=
  c.isAlphanum || "!#$%&'*+-.^_|~\x60".toList.contains c

/-- Case folding pass of Go `textproto.CanonicalMIMEHeaderKey`: uppercase
the first letter and every letter following a `-`, lowercase the rest. -/
def canonChars : Bool → List Char → List Char
  | _, [] => []
  | upper, c :: cs =>
      (if upper then c.toUpper else c.toLower) :: canonChars (c == '-') cs

/-- Go `http.CanonicalHeaderKey`: returned unchanged when any byte is not a
valid header-name byte, canonically cased otherwise. -/
def canonicalHeaderKey (s : String) : String :=
  if s.toList.all isTokenChar then String.mk (canonChars true s.toList) else s

/-- Go `http.Header` (`map[string][]string` with canonical keys), modelled
as an association list; construction keeps keys unique. -/
def Header := List (String × List String)
deriving DecidableEq, Repr

/-- Entry slice stored under an already-canonical key. -/
def headerFind (h : List (String × List String)) (ck : String) : List String :=
  match h with
  | [] => []
  | (k', l) :: rest => if k' == ck then l else headerFind rest ck

/-- Append a value to the slice of an already-canonical key. -/
def headerAddC (h : List (String × List String)) (ck v : String) :
    List (String × List String) :=
  match h with
  | [] => [(ck, [v])]
  | (k', l) :: rest =>
      if k' == ck then (k', l ++ [v]) :: rest else (k', l) :: headerAddC rest ck v

/-- All values stored under a (canonicalized) key, i.e. Go `h[Canonical(k)]`. -/
def Header.hGetAll (h : Header) (k : String) : List String :=
  headerFind h (canonicalHeaderKey k)

/-- Go `http.Header.Get`: first stored value, or the empty string. -/
def Header.hGet (h : Header) (k : String) : String :=
  (h.hGetAll k).headD ""

/-- Go `http.Header.Add`: canonicalize the key and append the value. -/
def Header.hAdd (h : Header) (k v : String) : Header :=
  headerAddC h (canonicalHeaderKey k) v

/-- Direct map assignment `h[k] = vs` (the key is already canonical at the
two call sites in `setType`). -/
def Header.hSet (h : Header) (k : String) (vs : List String) : Header :=
  match h with
  | [] => [(k, vs)]
  | (k', l) :: rest =>
      if k' == k then (k', vs) :: rest else (k', l) :: Header.hSet rest k vs

/-- Direct map deletion `delete(h, k)` used in `WithHeader`; a Go map holds
each key once, so removing every matching entry coincides with `delete`. -/
def Header.hDel (h : Header) (k : String) : Header :=
  match h with
  | [] => []
  | (k', l) :: rest =>
      if k' == k then Header.hDel rest k else (k', l) :: Header.hDel rest k

/-- One part accumulated in the multipart writer: a form field written by
`WriteField`, or a file part opened by `CreateFormFile` with the content
that `io.Copy` put into it. -/
inductive MultipartEntry where
  | field (key value : String)
  | file (key path content : String)
deriving DecidableEq, Repr

/-- State of Go's `multipart.Writer` plus its backing `bytes.Buffer`
(`r.formbuf`): the boundary the writer was created with, the parts written
so far, and whether `Close` has run (spec section 4.4's absent/open/closed
machine, with `absent` expressed as `Option`). -/
structure MultipartState where
  boundary : String
  parts : List MultipartEntry
  closed : Bool
deriving DecidableEq, Repr

/-- Go `multipart.Writer.FormDataContentType` (generated boundaries contain
no special characters, so the quoting branch never fires). -/
def formDataContentType (boundary : String) : String :=
  "multipart/form-data; boundary=" ++ boundary

/-- Serialization of one part as `mime/multipart` writes it into the
buffer; `pre` is the boundary line prefix (empty for the first part). -/
def MultipartEntry.render (boundary pre : String) : MultipartEntry → String
  | .field k v =>
      pre ++ "--" ++ boundary ++ "\r\n" ++
        "Content-Disposition: form-data; name=\"" ++ k ++ "\"\r\n\r\n" ++ v
  | .file k p c =>
      pre ++ "--" ++ boundary ++ "\r\n" ++
        "Content-Disposition: form-data; name=\"" ++ k ++ "\"; filename=\"" ++
        p ++ "\"\r\nContent-Type: application/octet-stream\r\n\r\n" ++ c

/-- Content of the backing buffer: every part (subsequent parts are
preceded by a `\r\n` closing the previous one) plus, once `Close` has run,
the `\r\n--boundary--\r\n` epilogue. -/
def MultipartState.render (m : MultipartState) : String :=
  go m.parts "" ++ (if m.closed then "\r\n--" ++ m.boundary ++ "--\r\n" else "")
where
  go : List MultipartEntry → String → String
    | [], _ => ""
    | e :: es, pre => e.render m.boundary pre ++ go es "\r\n"

/-- Modelled fields of the underlying `*http.Request` that `request.go`
reads or writes (`r.http`). `contentLength` is an `Int` because
`WithChunked` stores `-1`. -/
structure HttpRequest where
  host : String := ""
  header : Header := []
  body : Option BodyVal := none
  contentLength : Int := 0
  urlScheme : String := "http"
  urlPath : String := ""
  rawQuery : String := ""
  protoMajor : Nat := 1
  protoMinor : Nat := 1
  cookies : List (String × String) := []
  basicAuth : Option (String × String) := none
deriving DecidableEq, Repr

/-- The `Request` struct of `request.go`. Collaborator handles stored in
`config` (factory, client, dialer, printers, reporter) are modelled at their
use sites; `formbuf` and `multipart` are merged into one `MultipartState`
since the writer is the buffer's only writer before encoding. -/
structure Request where
  chain : Chain
  http : HttpRequest := {}
  path : String := ""
  query : Option Values := none
  form : Option Values := none
  multipart : Option MultipartState := none
  bodySetter : String := ""
  typeSetter : String := ""
  forceType : Bool := false
  wsUpgrade : Bool := false
  matchers : List Matcher := []
deriving DecidableEq, Repr

/-- Conflict message of `setType` (source lines 1042-1046); `%q` verbs are
rendered as plain double quotes. -/
def typeConflictMsg (previousType typeSetter newType newSetter : String) : String :=
  "\nambiguous request \"Content-Type\" header values:\n \"" ++ previousType ++
    "\" (set by " ++ typeSetter ++ ")\n\nand:\n \"" ++ newType ++
    "\" (wanted by " ++ newSetter ++ ")"

/-- Conflict message of `setBody` (source lines 1057-1059). -/
def bodyConflictMsg (oldSetter newSetter : String) : String :=
  "\nambiguous request body contents:\n  set by " ++ oldSetter ++
    "\n  overwritten by " ++ newSetter

/-- Message of `encodeWebsocketRequest` (source lines 985-988), including
the source's "webocket" spelling. -/
def wsBodyMsg (bodySetter : String) : String :=
  "\nwebocket request can not have body:\n  body set by " ++ bodySetter ++
    "\n  webocket enabled by WithWebsocketUpgrade"

/-- Message of `WithFile` when multipart was never opened (source line 793). -/
def fileRequiresMultipartMsg : String :=
  "WithFile requires WithMultipart to be called first"

/-- Nil-argument message of the `NewRequest` interpolation callback (source
lines 82-84); the `%v` dump of the argument list is elided. -/
def nilPathArgMsg (method : String) : String :=
  "\nunexpected nil argument for url path format string:\n Request(\"" ++
    method ++ "\", ...)"

/-- Nil-argument message of `WithPath` (source lines 250-252). -/
def nilWithPathArgMsg (key : String) : String :=
  "\nunexpected nil argument for url path format string:\n WithPath(\"" ++
    key ++ "\", <nil>)"

/-- Unknown-key message of `WithPath` (source lines 271-273). -/
def unknownPathKeyMsg (key value path : String) : String :=
  "\nunexpected key for url path format string:\n WithPath(\"" ++ key ++
    "\", " ++ value ++ ")\n\npath:\n \"" ++ path ++ "\""

/-- Message of `WithProto` for an unparsable version (source lines 557-559). -/
def badProtoMsg (proto : String) : String :=
  "\nunexpected protocol version \"" ++ proto ++
    "\", expected \"HTTP/\x7bmajor\x7d.\x7bminor\x7d\""

/-- Message of `WithChunked` on a sub-1.1 protocol (source lines 586-587). -/
def chunkedProtoMsg (major minor : Nat) : String :=
  "chunked Transfer-Encoding requires at least \"HTTP/1.1\"," ++
    "but \"HTTP/" ++ toString major ++ "." ++ toString minor ++ "\" is enabled"

/-- `func (r *Request) setType(newSetter, newType string, overwrite bool)`
(source lines 1033-1053). -/
def Request.setType (r : Request) (newSetter newType : String)
    (overwrite : Bool) : Request :=
  if r.forceType then r
  else
    let previousType := r.http.header.hGet "Content-Type"
    if !overwrite && previousType != "" && previousType != newType then
      { r with chain :=
          r.chain.fail (typeConflictMsg previousType r.typeSetter newType newSetter) }
    else
      { r with
        typeSetter := newSetter,
        http := { r.http with header := r.http.header.hSet "Content-Type" [newType] } }

/-- `func (r *Request) setBody(setter string, reader io.Reader, len int,
overwrite bool)` (source lines 1055-1076). The `len > 0 && reader == nil`
branch panics in Go ("invalid length"); it is unreachable from every call
site in `request.go` and is modelled as leaving the request unchanged. -/
def Request.setBody (r : Request) (setter : String) (reader : Option BodyVal)
    (len : Int) (overwrite : Bool) : Request :=
  if !overwrite && r.bodySetter != "" then
    { r with chain := r.chain.fail (bodyConflictMsg r.bodySetter setter) }
  else if len > 0 && reader == none then
    r
  else
    match reader with
    | none =>
        { r with
          http := { r.http with body := none, contentLength := 0 },
          bodySetter := setter }
    | some b =>
        { r with
          http := { r.http with body := some b, contentLength := len },
          bodySetter := setter }

/-- `WithMatcher` (source lines 122-125). Note: unlike every other mutating
call in `request.go`, it does not consult the failure chain. -/
def Request.withMatcher (r : Request) (m : Matcher) : Request :=
  { r with matchers := r.matchers ++ [m] }

/-- `WithWebsocketUpgrade` (source lines 197-203). -/
def Request.withWebsocketUpgrade (r : Request) : Request :=
  if r.chain.failed then r else { r with wsUpgrade := true }

/-- `WithQuery` (source lines 340-349); the value argument is modelled
after its `fmt.Sprint` conversion. -/
def Request.withQuery (r : Request) (key value : String) : Request :=
  if r.chain.failed then r
  else { r with query := some ((r.query.getD []).add key value) }

/-- `WithQueryObject` (source lines 372-403); the encoder outcome
(`query.Values` / `form.EncodeToValues`) is passed in as an argument. -/
def Request.withQueryObject (r : Request) (encoded : Except String Values) : Request :=
  if r.chain.failed then r
  else
    match encoded with
    | .error e => { r with chain := r.chain.fail e }
    | .ok q => { r with query := some ((r.query.getD []).merge q) }

/-- `WithQueryString` (source lines 412-428). -/
def Request.withQueryString (r : Request) (s : String) : Request :=
  if r.chain.failed then r
  else
    match parseQuery s with
    | none => { r with chain := r.chain.fail "invalid query string" }
    | some v => { r with query := some ((r.query.getD []).merge v) }

/-- `WithHeader` (source lines 473-491). -/
def Request.withHeader (r : Request) (k v : String) : Request :=
  if r.chain.failed then r
  else
    let ck := canonicalHeaderKey k
    if ck == "Host" then
      { r with http := { r.http with host := v } }
    else if ck == "Content-Type" then
      let hdr := if r.forceType then r.http.header
                 else r.http.header.hDel "Content-Type"
      { r with
        forceType := true,
        typeSetter := "WithHeader",
        http := { r.http with header := hdr.hAdd k v } }
    else
      { r with http := { r.http with header := r.http.header.hAdd k v } }

/-- `WithHeaders` (source lines 458-466); the Go map is modelled as a list
of pairs in iteration order. -/
def Request.withHeaders (r : Request) (headers : List (String × String)) : Request :=
  if r.chain.failed then r
  else headers.foldl (fun acc kv => acc.withHeader kv.1 kv.2) r

/-- `WithCookie` (source lines 516-525). -/
def Request.withCookie (r : Request) (k v : String) : Request :=
  if r.chain.failed then r
  else { r with http := { r.http with cookies := r.http.cookies ++ [(k, v)] } }

/-- `WithBasicAuth` (source lines 536-542). -/
def Request.withBasicAuth (r : Request) (username password : String) : Request :=
  if r.chain.failed then r
  else { r with http := { r.http with basicAuth := some (username, password) } }

/-- Go `http.ParseHTTPVersion`, on the fast paths plus digit parsing with
the same `Big = 1000000` bounds. -/
def parseHTTPVersion (proto : String) : Option (Nat × Nat) :=
  if proto == "HTTP/1.1" then some (1, 1)
  else if proto == "HTTP/1.0" then some (1, 0)
  else if proto.toList.take 5 == "HTTP/".toList then
    match splitOnChar '.' (proto.toList.drop 5) with
    | [a, b] =>
        match (String.mk a).toNat?, (String.mk b).toNat? with
        | some major, some minor =>
            if a.isEmpty || b.isEmpty || major > 1000000 || minor > 1000000 then none
            else some (major, minor)
        | _, _ => none
    | _ => none
  else none

/-- `WithProto` (source lines 551-565). -/
def Request.withProto (r : Request) (proto : String) : Request :=
  if r.chain.failed then r
  else
    match parseHTTPVersion proto with
    | none => { r with chain := r.chain.fail (badProtoMsg proto) }
    | some (major, minor) =>
        { r with http := { r.http with protoMajor := major, protoMinor := minor } }

/-- Go `http.Request.ProtoAtLeast`. -/
def HttpRequest.protoAtLeast (h : HttpRequest) (major minor : Nat) : Bool :=
  major < h.protoMajor || (h.protoMajor == major && minor ≤ h.protoMinor)

/-- `WithChunked` (source lines 581-592); the reader is modelled by the
bytes it would yield, `none` for a nil reader. -/
def Request.withChunked (r : Request) (reader : Option String) : Request :=
  if r.chain.failed then r
  else if !(r.http.protoAtLeast 1 1) then
    { r with chain := r.chain.fail (chunkedProtoMsg r.http.protoMajor r.http.protoMinor) }
  else r.setBody "WithChunked" (reader.map .content) (-1) false

/-- `WithBytes` (source lines 616-626). -/
def Request.withBytes (r : Request) (b : Option String) : Request :=
  if r.chain.failed then r
  else
    match b with
    | none => r.setBody "WithBytes" none 0 false
    | some s => r.setBody "WithBytes" (some (.content s)) s.utf8ByteSize false

/-- `WithText` (source lines 634-641). -/
def Request.withText (r : Request) (s : String) : Request :=
  if r.chain.failed then r
  else
    let r1 := r.setType "WithText" "text/plain; charset=utf-8" false
    r1.setBody "WithText" (some (.content s)) s.utf8ByteSize false

/-- `WithJSON` (source lines 656-670); `marshaled` is the `json.Marshal`
outcome. Note the body length is the marshaled byte count. -/
def Request.withJSON (r : Request) (marshaled : Except String String) : Request :=
  if r.chain.failed then r
  else
    match marshaled with
    | .error e => { r with chain := r.chain.fail e }
    | .ok b =>
        let r1 := r.setType "WithJSON" "application/json; charset=utf-8" false
        r1.setBody "WithJSON" (some (.content b)) b.utf8ByteSize false

/-- `WithJSONPretty` (source lines 594-608); it reuses the "WithJSON"
setter label. -/
def Request.withJSONPretty (r : Request) (marshaled : Except String String) : Request :=
  if r.chain.failed then r
  else
    match marshaled with
    | .error e => { r with chain := r.chain.fail e }
    | .ok b =>
        let r1 := r.setType "WithJSON" "application/json; charset=utf-8" false
        r1.setBody "WithJSON" (some (.content b)) b.utf8ByteSize false

/-- `WithForm` (source lines 693-730); `encoded` is the
`form.EncodeToValues` outcome. In the multipart branch the keys are written
in sorted order and only the first value of each key (`f[k][0]`); buffer
writes cannot fail, so the `WriteField` error branch is dead. -/
def Request.withForm (r : Request) (encoded : Except String Values) : Request :=
  if r.chain.failed then r
  else
    match encoded with
    | .error e => { r with chain := r.chain.fail e }
    | .ok f =>
        match r.multipart with
        | some m =>
            let r1 := r.setType "WithForm" "multipart/form-data" false
            let fields := (sortStrings f.keys).map fun k =>
              MultipartEntry.field k ((f.lookup k).headD "")
            { r1 with multipart := some { m with parts := m.parts ++ fields } }
        | none =>
            let r1 := r.setType "WithForm" "application/x-www-form-urlencoded" false
            { r1 with form := some ((r1.form.getD []).merge f) }

/-- `WithFormField` (source lines 743-764); the value argument is modelled
after its `fmt.Sprint` conversion. -/
def Request.withFormField (r : Request) (key value : String) : Request :=
  if r.chain.failed then r
  else
    match r.multipart with
    | some m =>
        let r1 := r.setType "WithFormField" "multipart/form-data" false
        { r1 with multipart := some { m with parts := m.parts ++ [.field key value] } }
    | none =>
        let r1 := r.setType "WithFormField" "application/x-www-form-urlencoded" false
        { r1 with form := some ((r1.form.getD []).add key value) }

/-- `WithFile` (source lines 785-822); `content` is the outcome of reading
the file (explicit reader or `os.Open` + `io.Copy`). On a read error the
part header opened by `CreateFormFile` stays in the buffer with no content. -/
def Request.withFile (r : Request) (key path : String)
    (content : Except String String) : Request :=
  if r.chain.failed then r
  else
    let r1 := r.setType "WithFile" "multipart/form-data" false
    match r1.multipart with
    | none => { r1 with chain := r1.chain.fail fileRequiresMultipartMsg }
    | some m =>
        match content with
        | .error e =>
            { r1 with
              multipart := some { m with parts := m.parts ++ [.file key path ""] },
              chain := r1.chain.fail e }
        | .ok s =>
            { r1 with multipart := some { m with parts := m.parts ++ [.file key path s] } }

/-- `WithFileBytes` (source lines 834-839). -/
def Request.withFileBytes (r : Request) (key path data : String) : Request :=
  if r.chain.failed then r
  else r.withFile key path (.ok data)

/-- `WithMultipart` (source lines 855-869); the randomly generated writer
boundary is passed in as an argument. -/
def Request.withMultipart (r : Request) (boundary : String) : Request :=
  if r.chain.failed then r
  else
    let r1 := r.setType "WithMultipart" "multipart/form-data" false
    match r1.multipart with
    | none =>
        let r2 := { r1 with
          multipart := some { boundary := boundary, parts := [], closed := false } }
        r2.setBody "WithMultipart" (some .formbufRef) 0 false
    | some _ => r1

/-- Segment of a path template as scanned by `imkira/go-interpol`: a
literal character or a `\x7bname\x7d` placeholder. -/
inductive Seg where
  | lit (c : Char)
  | ph (key : String)
deriving DecidableEq, Repr

/-- Template scanner of `imkira/go-interpol`, in one structural pass: the
second argument is `none` outside a placeholder and `some acc` while the
characters of a placeholder name are being collected. Literal characters
are copied, `\x7b` opens a placeholder, `\x7d` closes it; a stray `\x7d`,
a nested `\x7b`, or end of input inside a placeholder is an error. -/
def scanTplAux : List Char → Option (List Char) → Option (List Seg)
  | [], none => some []
  | [], some _ => none
  | c :: cs, none =>
      if c == '\x7d' then none
      else if c == '\x7b' then scanTplAux cs (some [])
      else (scanTplAux cs none).map (Seg.lit c :: ·)
  | c :: cs, some acc =>
      if c == '\x7d' then (scanTplAux cs none).map (Seg.ph (String.mk acc) :: ·)
      else if c == '\x7b' then none
      else scanTplAux cs (some (acc ++ [c]))

/-- Scan a whole template into segments. -/
def scanTpl (cs : List Char) : Option (List Seg) := scanTplAux cs none

/-- Both `imkira/go-interpol` parse-error texts, collapsed into one message
(no claim inspects them; `NewRequest` and `WithPath` only forward
`err.Error()` to the chain). -/
def templateErrMsg : String := "interpol: templating error"

/-- The `interpol.WithFunc` callback of `NewRequest` (source lines 79-95),
folded over the scanned segments: the counter `n` counts placeholder
occurrences, the first `len(pathargs)` of them are substituted positionally,
a nil argument records a failure and writes nothing, and later placeholders
are written back as `\x7bname\x7d`. -/
def interpSegs (method : String) (args : List (Option String)) :
    List Seg → Nat → Chain → String × Chain
  | [], _, c => ("", c)
  | .lit ch :: rest, n, c =>
      let (t, c') := interpSegs method args rest n c
      (String.mk [ch] ++ t, c')
  | .ph k :: rest, n, c =>
      if h : n < args.length then
        match args.get ⟨n, h⟩ with
        | none =>
            let (t, c') := interpSegs method args rest (n + 1)
              (c.fail (nilPathArgMsg method))
            (t, c')
        | some v =>
            let (t, c') := interpSegs method args rest (n + 1) c
            (v ++ t, c')
      else
        let (t, c') := interpSegs method args rest (n + 1) c
        ("\x7b" ++ k ++ "\x7d" ++ t, c')

/-- `NewRequest` (source lines 67-111): fresh chain, positional path
interpolation, base request from the factory (modelled as always
succeeding, with `basePath` standing for the path part of `Config.BaseURL`).
The nil-collaborator panics guard construction and are outside the chain. -/
def newRequest (method basePath path : String)
    (pathargs : List (Option String)) : Request :=
  match scanTpl path.toList with
  | none =>
      { chain := freshChain.fail templateErrMsg,
        http := { urlPath := basePath }, path := "" }
  | some segs =>
      let (p, c) := interpSegs method pathargs segs 0 freshChain
      { chain := c, http := { urlPath := basePath }, path := p }

/-- ASCII case-insensitive equality modelling `strings.EqualFold` on the
identifiers used in path templates. -/
def strEqFold (a b : String) : Bool :=
  a.toList.map Char.toLower == b.toList.map Char.toLower

/-- The `interpol.WithFunc` callback of `WithPath` (source lines 247-263)
folded over the scanned segments, threading the `ok` flag and the chain. -/
def withPathSegs (key : String) (value : Option String) :
    List Seg → Bool → Chain → String × Bool × Chain
  | [], ok, c => ("", ok, c)
  | .lit ch :: rest, ok, c =>
      let (t, ok', c') := withPathSegs key value rest ok c
      (String.mk [ch] ++ t, ok', c')
  | .ph k :: rest, ok, c =>
      if strEqFold k key then
        match value with
        | none =>
            let (t, ok', c') := withPathSegs key value rest ok
              (c.fail (nilWithPathArgMsg key))
            (t, ok', c')
        | some v =>
            let (t, ok', c') := withPathSegs key value rest true c
            (v ++ t, ok', c')
      else
        let (t, ok', c') := withPathSegs key value rest ok c
        ("\x7b" ++ k ++ "\x7d" ++ t, ok', c')

/-- `WithPath` (source lines 242-277); on a scan error the path is left
unchanged, otherwise the substituted path is stored even when a nil value
or an unmatched key records a failure. -/
def Request.withPath (r : Request) (key : String) (value : Option String) : Request :=
  if r.chain.failed then r
  else
    match scanTpl r.path.toList with
    | none => { r with chain := r.chain.fail templateErrMsg }
    | some segs =>
        let (p, ok, c) := withPathSegs key value segs false r.chain
        let r1 := { r with path := p, chain := c }
        if ok then r1
        else
          let printed := match value with | none => "<nil>" | some v => v
          let c' := r1.chain.fail (unknownPathKeyMsg key printed p)
          { r1 with chain := c' }

/-- `concatPaths` (source lines 1078-1088). -/
def concatPaths (a b : String) : String :=
  if a == "" then b
  else if b == "" then a
  else
    let a' := if a.toList.getLast? == some '/' then String.mk a.toList.dropLast else a
    let b' := if b.toList.head? == some '/' then String.mk (b.toList.drop 1) else b
    a' ++ "/" ++ b'

/-- `encodeRequest` (source lines 952-977). Closing the writer targets a
`bytes.Buffer` and cannot fail, so the `Close` error branch is dead; the
buffer length after closing becomes the content length. -/
def Request.encodeRequest (r : Request) : Bool × Request :=
  if r.chain.failed then (false, r)
  else
    let r1 := { r with http := { r.http with urlPath := concatPaths r.http.urlPath r.path } }
    let r2 := match r1.query with
      | some q => { r1 with http := { r1.http with rawQuery := q.encode } }
      | none => r1
    match r2.multipart with
    | some m =>
        let m' := { m with closed := true }
        let r3 := { r2 with multipart := some m' }
        let r4 := r3.setType "Expect" (formDataContentType m'.boundary) true
        (true, r4.setBody "Expect" (some .formbufRef) m'.render.utf8ByteSize true)
    | none =>
        match r2.form with
        | some f =>
            let s := f.encode
            (true, r2.setBody "WithForm or WithFormField" (some (.content s))
              s.utf8ByteSize false)
        | none => (true, r2)

/-- `encodeWebsocketRequest` (source lines 979-1000). -/
def Request.encodeWebsocketRequest (r : Request) : Bool × Request :=
  if r.chain.failed then (false, r)
  else if r.bodySetter != "" then
    (false, { r with chain := r.chain.fail (wsBodyMsg r.bodySetter) })
  else
    let scheme := if r.http.urlScheme == "https" then "wss" else "ws"
    (true, { r with http := { r.http with urlScheme := scheme } })

/-- Websocket dialer error: the distinguished `websocket.ErrBadHandshake`
or any other error text. -/
inductive WsErr where
  | badHandshake
  | other (msg : String)
deriving DecidableEq, Repr

/-- What `Config.WebsocketDialer.Dial` would return for this request. -/
structure WsDialOutcome where
  conn : Option WsConnHandle
  resp : Option HttpResponse
  err : Option WsErr
deriving DecidableEq, Repr

/-- Transport collaborators: the outcome `Config.Client.Do` would produce
and the outcome the websocket dialer would produce. -/
structure Transport where
  clientResult : Except String HttpResponse
  dialOutcome : WsDialOutcome
deriving Repr

/-- Result of `sendRequest`, with a flag recording whether `Client.Do` was
actually invoked. -/
structure SendResult where
  resp : Option HttpResponse
  request : Request
  invoked : Bool
deriving DecidableEq, Repr

/-- `sendRequest` (source lines 1002-1015). -/
def Request.sendRequest (r : Request) (t : Transport) : SendResult :=
  if r.chain.failed then ⟨none, r, false⟩
  else
    match t.clientResult with
    | .error e => ⟨none, { r with chain := r.chain.fail e }, true⟩
    | .ok resp => ⟨some resp, r, true⟩

/-- Result of `sendWebsocketRequest`, with a flag recording whether
`Dial` was actually invoked. -/
structure WsSendResult where
  resp : Option HttpResponse
  conn : Option WsConnHandle
  request : Request
  invoked : Bool
deriving DecidableEq, Repr

/-- `sendWebsocketRequest` (source lines 1017-1031): only an error other
than `ErrBadHandshake` is fatal; a bad handshake still hands back whatever
response and connection the dialer produced. -/
def Request.sendWebsocketRequest (r : Request) (t : Transport) : WsSendResult :=
  if r.chain.failed then ⟨none, none, r, false⟩
  else
    let d := t.dialOutcome
    match d.err with
    | some (.other e) => ⟨none, none, { r with chain := r.chain.fail e }, true⟩
    | _ => ⟨d.resp, d.conn, r, true⟩

/-- Outcome of one `roundTrip` (source lines 906-950): final request state,
the produced response (or `none`), the websocket connection handle, and
which collaborator was invoked. -/
structure RoundTripOutcome where
  request : Request
  response : Option HttpResponse
  wsConn : Option WsConnHandle
  httpInvoked : Bool
  dialInvoked : Bool
deriving DecidableEq, Repr

/-- `roundTrip` (source lines 906-950); printers and timing are
diagnostics-only collaborators and are not modelled. -/
def Request.roundTrip (r : Request) (t : Transport) : RoundTripOutcome :=
  let (ok, r1) := r.encodeRequest
  if !ok then ⟨r1, none, none, false, false⟩
  else if r1.wsUpgrade then
    let (ok2, r2) := r1.encodeWebsocketRequest
    if !ok2 then ⟨r2, none, none, false, false⟩
    else
      let w := r2.sendWebsocketRequest t
      ⟨w.request, w.resp, w.conn, false, w.invoked⟩
  else
    let s := r1.sendRequest t
    ⟨s.request, s.resp, none, s.invoked, false⟩

/-- One user-facing mutating call on a `Request`, with its (modelled)
arguments; used to quantify over "every mutating operation" in spec
section 4.6. Collaborator-configuration setters (`WithClient`,
`WithHandler`, `WithWebsocketDialer`, `WithURL`) only swap collaborator
handles and are not part of the pending request state. -/
inductive Mutation where
  | mWithMatcher (m : Matcher)
  | mWithWebsocketUpgrade
  | mWithQuery (k v : String)
  | mWithQueryObject (encoded : Except String Values)
  | mWithQueryString (s : String)
  | mWithHeader (k v : String)
  | mWithHeaders (hs : List (String × String))
  | mWithCookie (k v : String)
  | mWithBasicAuth (username password : String)
  | mWithProto (proto : String)
  | mWithChunked (reader : Option String)
  | mWithBytes (b : Option String)
  | mWithText (s : String)
  | mWithJSON (marshaled : Except String String)
  | mWithJSONPretty (marshaled : Except String String)
  | mWithForm (encoded : Except String Values)
  | mWithFormField (k v : String)
  | mWithFile (k p : String) (content : Except String String)
  | mWithFileBytes (k p data : String)
  | mWithMultipart (boundary : String)
  | mWithPath (k : String) (v : Option String)
deriving Repr

/-- Dispatch a `Mutation` to the corresponding operation of the model. -/
def applyMutation (r : Request) : Mutation → Request
  | .mWithMatcher m => r.withMatcher m
  | .mWithWebsocketUpgrade => r.withWebsocketUpgrade
  | .mWithQuery k v => r.withQuery k v
  | .mWithQueryObject e => r.withQueryObject e
  | .mWithQueryString s => r.withQueryString s
  | .mWithHeader k v => r.withHeader k v
  | .mWithHeaders hs => r.withHeaders hs
  | .mWithCookie k v => r.withCookie k v
  | .mWithBasicAuth u p => r.withBasicAuth u p
  | .mWithProto p => r.withProto p
  | .mWithChunked rd => r.withChunked rd
  | .mWithBytes b => r.withBytes b
  | .mWithText s => r.withText s
  | .mWithJSON m => r.withJSON m
  | .mWithJSONPretty m => r.withJSONPretty m
  | .mWithForm e => r.withForm e
  | .mWithFormField k v => r.withFormField k v
  | .mWithFile k p c => r.withFile k p c
  | .mWithFileBytes k p d => r.withFileBytes k p d
  | .mWithMultipart b => r.withMultipart b
  | .mWithPath k v => r.withPath k v

/-- Whether a mutation is the `WithMatcher` call. -/
def Mutation.isMatcherCall : Mutation → Bool
  | .mWithMatcher _ => true
  | _ => false

/-- A request as produced by `NewRequest` with an empty base URL, a
placeholder-free path, and no positional arguments. -/
def freshRequest : Request := { chain := freshChain }

/-- Default transport used for concrete executions in witnesses. -/
def plainTransport : Transport :=
  { clientResult := .ok { statusCode := 200 }, dialOutcome := ⟨none, none, none⟩ }

lemma chainFail_failed (c : Chain) (m : String) : (c.fail m).failed = true := by
  unfold Chain.fail
  split <;> simp_all

lemma chainFail_of_live (c : Chain) (m : String) (h : c.failed = false) :
    c.fail m = ⟨true, m⟩ := by
  unfold Chain.fail
  simp [h]

lemma chainFail_of_failed (c : Chain) (m : String) (h : c.failed = true) :
    c.fail m = c := by
  unfold Chain.fail
  simp [h]

lemma setBody_conflict_core (r : Request) (s2 : String) (rd : Option BodyVal)
    (len : Int) (hown : r.bodySetter ≠ "") :
    r.setBody s2 rd len false =
      { r with chain := r.chain.fail (bodyConflictMsg r.bodySetter s2) } := by
  unfold Request.setBody
  simp [hown]

/-- Conclusion of the body-slot conflict behaviour at `setBody`. -/
def BodyConflictOutcome (r : Request) (s2 : String) (rd : Option BodyVal)
    (len : Int) : Prop :=
  (r.setBody s2 rd len false).chain.failed = true ∧
  (r.setBody s2 rd len false).chain.message = bodyConflictMsg r.bodySetter s2 ∧
  (∃ pre mid post,
    (r.setBody s2 rd len false).chain.message = pre ++ r.bodySetter ++ mid ++ s2 ++ post) ∧
  (r.setBody s2 rd len false).http.body = r.http.body ∧
  (r.setBody s2 rd len false).http.contentLength = r.http.contentLength ∧
  (r.setBody s2 rd len false).bodySetter = r.bodySetter

/-- C1: when the body slot is already owned by a (different) setter label
and a second `setBody` call runs without the override flag, the chain
records a failure whose message names the original and the new setter, and
the body, content length and owning label stay exactly as the first setter
left them. -/
theorem setBody_second_setter_conflict (r : Request) (s2 : String)
    (rd : Option BodyVal) (len : Int) (hlive : r.chain.failed = false)
    (hown : r.bodySetter ≠ "") (hdiff : s2 ≠ r.bodySetter) :
    BodyConflictOutcome r s2 rd len := by
  have hcore := setBody_conflict_core r s2 rd len hown
  have hfail := chainFail_of_live r.chain (bodyConflictMsg r.bodySetter s2) hlive
  have hmsg : (r.setBody s2 rd len false).chain.message
      = bodyConflictMsg r.bodySetter s2 := by
    rw [hcore]
    simp [hfail]
  refine ⟨?_, hmsg, ?_, ?_, ?_, ?_⟩
  · rw [hcore]
    simp [hfail]
  · refine ⟨"\nambiguous request body contents:\n  set by ",
      "\n  overwritten by ", "", ?_⟩
    rw [hmsg]
    simp [bodyConflictMsg, String.append_assoc]
  · rw [hcore]
  · rw [hcore]
  · rw [hcore]

/-- Concrete request whose body slot is owned by `WithText`. -/
def textOwnedReq : Request := freshRequest.withText "hello"

/-- Witness for C1 at a concrete input. -/
theorem setBody_second_setter_conflict_witness :
    textOwnedReq.chain.failed = false ∧ textOwnedReq.bodySetter ≠ "" ∧
    BodyConflictOutcome textOwnedReq "WithJSON" (some (.content "42")) 2 :=
  ⟨by decide, by decide,
    setBody_second_setter_conflict textOwnedReq "WithJSON" (some (.content "42")) 2
      (by decide) (by decide) (by decide)⟩

/-- Conclusion of the nil-`WithBytes` behaviour. -/
def WithBytesNilOutcome (r : Request) : Prop :=
  (r.withBytes none).chain = r.chain ∧
  (r.withBytes none).http.body = none ∧
  (r.withBytes none).http.contentLength = 0 ∧
  (r.withBytes none).bodySetter = "WithBytes" ∧
  ∀ (s2 : String) (rd : Option BodyVal) (len : Int), s2 ≠ "WithBytes" →
    ((r.withBytes none).setBody s2 rd len false).chain.failed = true ∧
    ((r.withBytes none).setBody s2 rd len false).chain.message
      = bodyConflictMsg "WithBytes" s2 ∧
    ∃ pre mid post,
      ((r.withBytes none).setBody s2 rd len false).chain.message
        = pre ++ "WithBytes" ++ mid ++ s2 ++ post

/-- C10: `WithBytes` with a nil slice succeeds, clears the body reader and
the content length, and still claims the body slot for the label
`WithBytes`, so that any later body-setting call by a different label
without override fails with a conflict naming `WithBytes`. -/
theorem withBytes_nil_claims_body_slot (r : Request)
    (hlive : r.chain.failed = false) (hfree : r.bodySetter = "") :
    WithBytesNilOutcome r := by
  have h1 : r.withBytes none =
      { r with http := { r.http with body := none, contentLength := 0 },
               bodySetter := "WithBytes" } := by
    unfold Request.withBytes Request.setBody
    simp [hlive, hfree]
  refine ⟨by rw [h1], by rw [h1], by rw [h1], by rw [h1], ?_⟩
  intro s2 rd len hdiff
  have hset : (r.withBytes none).bodySetter = "WithBytes" := by rw [h1]
  have hown : (r.withBytes none).bodySetter ≠ "" := by
    rw [hset]
    decide
  have hcore := setBody_conflict_core (r.withBytes none) s2 rd len hown
  have hlive2 : (r.withBytes none).chain.failed = false := by rw [h1]; exact hlive
  have hfail := chainFail_of_live (r.withBytes none).chain
    (bodyConflictMsg (r.withBytes none).bodySetter s2) hlive2
  rw [hset] at hfail
  have hmsg : ((r.withBytes none).setBody s2 rd len false).chain.message
      = bodyConflictMsg "WithBytes" s2 := by
    rw [hcore, hset, hfail]
  refine ⟨?_, hmsg, ?_⟩
  · rw [hcore, hset, hfail]
  · refine ⟨"\nambiguous request body contents:\n  set by ",
      "\n  overwritten by ", "", ?_⟩
    rw [hmsg]
    simp [bodyConflictMsg, String.append_assoc]

/-- Witness for C10 at a concrete input. -/
theorem withBytes_nil_claims_body_slot_witness :
    freshRequest.chain.failed = false ∧ freshRequest.bodySetter = "" ∧
    WithBytesNilOutcome freshRequest :=
  ⟨by decide, by decide,
    withBytes_nil_claims_body_slot freshRequest (by decide) (by decide)⟩

/-- Conclusion of the websocket transmission behaviour: a bad handshake is
passed through without failure, any other dialer error is fatal. -/
def WsTransmitOutcome (r : Request) (t : Transport) : Prop :=
  (t.dialOutcome.err = some .badHandshake →
    r.sendWebsocketRequest t = ⟨t.dialOutcome.resp, t.dialOutcome.conn, r, true⟩) ∧
  (∀ e, t.dialOutcome.err = some (.other e) →
    (r.sendWebsocketRequest t).resp = none ∧
    (r.sendWebsocketRequest t).conn = none ∧
    (r.sendWebsocketRequest t).request.chain.failed = true ∧
    (r.sendWebsocketRequest t).request.chain.message = e)

/-- C5: during websocket transmission the distinguished handshake-rejection
error is not fatal — no failure is recorded and the dialer's handshake
response (and connection) are handed back for inspection; any other
non-nil dialer error records a fatal failure and produces no response. -/
theorem sendWebsocket_handshake_rejection (r : Request) (t : Transport)
    (hlive : r.chain.failed = false) : WsTransmitOutcome r t := by
  constructor
  · intro h
    unfold Request.sendWebsocketRequest
    simp [hlive, h]
  · intro e h
    have hf := chainFail_of_live r.chain e hlive
    unfold Request.sendWebsocketRequest
    simp [hlive, h, hf]

/-- Dialer outcome where the handshake was rejected at the HTTP layer. -/
def rejectTransport : Transport :=
  { clientResult := .ok { statusCode := 200 },
    dialOutcome := ⟨some ⟨⟩, some { statusCode := 400 }, some .badHandshake⟩ }

/-- Dialer outcome with a genuine transport error. -/
def brokenTransport : Transport :=
  { clientResult := .ok { statusCode := 200 },
    dialOutcome := ⟨none, none, some (.other "dial tcp: connection refused")⟩ }

/-- Witness for C5 at concrete inputs for both error shapes. -/
theorem sendWebsocket_handshake_rejection_witness :
    freshRequest.chain.failed = false ∧
    WsTransmitOutcome freshRequest rejectTransport ∧
    WsTransmitOutcome freshRequest brokenTransport :=
  ⟨by decide,
    sendWebsocket_handshake_rejection freshRequest rejectTransport (by decide),
    sendWebsocket_handshake_rejection freshRequest brokenTransport (by decide)⟩

/-- Conclusion of the failed-chain short-circuit behaviour over the
mutating operations. -/
def FailedChainMutationOutcome (r : Request) (m : Mutation) : Prop :=
  (m.isMatcherCall = false → applyMutation r m = r) ∧
  (∀ mm, m = .mWithMatcher mm →
    applyMutation r m = { r with matchers := r.matchers ++ [mm] })

/-- C3 (amended): on a request whose chain has already failed, every
mutating operation except `WithMatcher` returns its receiver unchanged and
records nothing; `WithMatcher` has no chain guard and still appends its
matcher, leaving every other slot and the chain unchanged. -/
theorem failed_chain_mutations (r : Request) (m : Mutation)
    (hfailed : r.chain.failed = true) : FailedChainMutationOutcome r m := by
  cases m <;>
    simp [FailedChainMutationOutcome, applyMutation, Mutation.isMatcherCall,
      Request.withMatcher, Request.withWebsocketUpgrade, Request.withQuery,
      Request.withQueryObject, Request.withQueryString, Request.withHeader,
      Request.withHeaders, Request.withCookie, Request.withBasicAuth,
      Request.withProto, Request.withChunked, Request.withBytes,
      Request.withText, Request.withJSON, Request.withJSONPretty,
      Request.withForm, Request.withFormField, Request.withFile,
      Request.withFileBytes, Request.withMultipart, Request.withPath, hfailed]

/-- A request whose chain failed through a bad `WithProto` argument. -/
def failedReq : Request := freshRequest.withProto "bogus"

/-- Counterexample to C3 as stated: on an already-failed request,
`WithMatcher` does not return the receiver unchanged — the matcher list
grows. -/
theorem failed_chain_mutations_counterexample :
    failedReq.chain.failed = true ∧
    applyMutation failedReq (.mWithMatcher ⟨⟩) ≠ failedReq := by
  decide

/-- Witness for C3's amended theorem at concrete inputs. -/
theorem failed_chain_mutations_witness :
    failedReq.chain.failed = true ∧
    FailedChainMutationOutcome failedReq (.mWithQuery "a" "1") ∧
    FailedChainMutationOutcome failedReq (.mWithMatcher ⟨⟩) :=
  ⟨by decide,
    failed_chain_mutations failedReq (.mWithQuery "a" "1") (by decide),
    failed_chain_mutations failedReq (.mWithMatcher ⟨⟩) (by decide)⟩

lemma headerFind_headerAddC (h : List (String × List String)) (ck v : String) :
    headerFind (headerAddC h ck v) ck = headerFind h ck ++ [v] := by
  induction h with
  | nil => simp [headerAddC, headerFind]
  | cons e rest ih =>
      obtain ⟨k', l⟩ := e
      by_cases hk : k' = ck
      · subst hk
        simp [headerAddC, headerFind]
      · have hbeq : (k' == ck) = false := by simp [hk]
        simp [headerAddC, headerFind, hbeq, ih]

lemma headerFind_hDel (h : Header) (ck : String) :
    headerFind (Header.hDel h ck) ck = [] := by
  induction h with
  | nil => simp [Header.hDel, headerFind]
  | cons e rest ih =>
      obtain ⟨k', l⟩ := e
      by_cases hk : k' = ck
      · subst hk
        simp [Header.hDel, headerFind, ih]
      · have hbeq : (k' == ck) = false := by simp [hk]
        simp [Header.hDel, headerFind, hbeq, ih]

lemma setType_skipped_when_forced (r : Request) (s ty : String) (ov : Bool)
    (hforced : r.forceType = true) : r.setType s ty ov = r := by
  unfold Request.setType
  simp [hforced]

/-- Conclusion of the explicit `WithHeader` Content-Type behaviour. -/
def ForcedContentTypeOutcome (r : Request) (k v : String) : Prop :=
  ((r.withHeader k v).chain = r.chain) ∧
  ((r.withHeader k v).forceType = true) ∧
  (r.forceType = false →
    (r.withHeader k v).http.header.hGetAll "Content-Type" = [v] ∧
    (r.withHeader k v).typeSetter = "WithHeader") ∧
  (r.forceType = true →
    (r.withHeader k v).http.header.hGetAll "Content-Type"
      = r.http.header.hGetAll "Content-Type" ++ [v]) ∧
  (∀ s ty ov, (r.withHeader k v).setType s ty ov = r.withHeader k v)

/-- C2 (amended): an explicit `WithHeader` call with key Content-Type always
succeeds and permanently sets the forced flag; the first such call deletes
any prior Content-Type value before adding its own, while later explicit
calls append an additional value after the existing ones; once forced,
every automatic inference attempt (`setType` from a typed body call) is
silently skipped — no failure, no header change. -/
theorem withHeader_contentType_forces (r : Request) (k v : String)
    (hlive : r.chain.failed = false)
    (hck : canonicalHeaderKey k = "Content-Type") :
    ForcedContentTypeOutcome r k v := by
  have hcct : canonicalHeaderKey "Content-Type" = "Content-Type" := by decide
  have hres : r.withHeader k v =
      { r with
        forceType := true,
        typeSetter := "WithHeader",
        http := { r.http with header :=
          (if r.forceType then r.http.header
           else r.http.header.hDel "Content-Type").hAdd k v } } := by
    unfold Request.withHeader
    rw [hck]
    simp [hlive]
  refine ⟨by rw [hres], by rw [hres], ?_, ?_, ?_⟩
  · intro hft
    constructor
    · rw [hres]
      show Header.hGetAll ((if r.forceType then r.http.header
        else r.http.header.hDel "Content-Type").hAdd k v) "Content-Type" = [v]
      rw [hft]
      simp only [Bool.false_eq_true, if_false]
      unfold Header.hGetAll Header.hAdd
      rw [hck, hcct, headerFind_headerAddC, headerFind_hDel]
      rfl
    · rw [hres]
  · intro hft
    rw [hres]
    show Header.hGetAll ((if r.forceType then r.http.header
      else r.http.header.hDel "Content-Type").hAdd k v) "Content-Type" = _
    rw [hft]
    simp only [if_true]
    unfold Header.hGetAll Header.hAdd
    rw [hck, hcct, headerFind_headerAddC]
  · intro s ty ov
    apply setType_skipped_when_forced
    rw [hres]

/-- Request with two explicit Content-Type header calls. -/
def doubleCTReq : Request :=
  (freshRequest.withHeader "Content-Type" "application/json").withHeader
    "Content-Type" "text/plain"

/-- Counterexample to C2 as stated: a second explicit Content-Type call
does not overwrite the prior value — both values are stored and the
effective (first) value is still the old one. -/
theorem withHeader_contentType_forces_counterexample :
    doubleCTReq.chain.failed = false ∧
    doubleCTReq.http.header.hGetAll "Content-Type"
      = ["application/json", "text/plain"] ∧
    doubleCTReq.http.header.hGet "Content-Type" = "application/json" := by
  decide

/-- Witness for C2's amended theorem at a concrete input. -/
theorem withHeader_contentType_forces_witness :
    freshRequest.chain.failed = false ∧
    canonicalHeaderKey "content-type" = "Content-Type" ∧
    ForcedContentTypeOutcome freshRequest "content-type" "application/json" :=
  ⟨by decide, by decide,
    withHeader_contentType_forces freshRequest "content-type" "application/json"
      (by decide) (by decide)⟩

lemma setType_preserves (r : Request) (s ty : String) (ov : Bool) :
    (r.setType s ty ov).multipart = r.multipart ∧
    (r.setType s ty ov).http.body = r.http.body ∧
    (r.setType s ty ov).http.contentLength = r.http.contentLength ∧
    (r.setType s ty ov).bodySetter = r.bodySetter ∧
    (r.setType s ty ov).wsUpgrade = r.wsUpgrade ∧
    (r.setType s ty ov).form = r.form ∧
    (r.setType s ty ov).query = r.query ∧
    (r.setType s ty ov).path = r.path := by
  unfold Request.setType
  split
  · simp
  · dsimp only
    split <;> simp

/-- Conclusion of a `WithFile` call made while no multipart state is open. -/
def FileWithoutMultipartOutcome (r : Request) (k p : String)
    (cres : Except String String) : Prop :=
  ((r.withFile k p cres).chain.failed = true) ∧
  ((r.withFile k p cres).http.body = r.http.body) ∧
  ((r.withFile k p cres).http.contentLength = r.http.contentLength) ∧
  ((r.withFile k p cres).multipart = none) ∧
  ((r.withFile k p cres).bodySetter = r.bodySetter) ∧
  ((r.setType "WithFile" "multipart/form-data" false).chain.failed = false →
    (r.withFile k p cres).chain.message = fileRequiresMultipartMsg ∧
    strContainsSub fileRequiresMultipartMsg "WithMultipart" = true)

/-- C9 (amended): a `WithFile` call on a request with no open multipart
state always fails and adds no file content to the body; when the
content-type inference step inside `WithFile` did not itself fail (no
conflicting prior content type), the recorded failure message names the
missing prerequisite call `WithMultipart`. -/
theorem withFile_without_multipart (r : Request) (k p : String)
    (cres : Except String String) (hlive : r.chain.failed = false)
    (hmp : r.multipart = none) : FileWithoutMultipartOutcome r k p cres := by
  have hpres := setType_preserves r "WithFile" "multipart/form-data" false
  have hmp1 : (r.setType "WithFile" "multipart/form-data" false).multipart = none := by
    rw [hpres.1, hmp]
  have hres : r.withFile k p cres =
      { r.setType "WithFile" "multipart/form-data" false with
        chain := (r.setType "WithFile" "multipart/form-data" false).chain.fail
          fileRequiresMultipartMsg } := by
    unfold Request.withFile
    simp [hlive, hmp1]
  refine ⟨?_, ?_, ?_, ?_, ?_, ?_⟩
  · rw [hres]
    exact chainFail_failed _ _
  · rw [hres]
    exact hpres.2.1
  · rw [hres]
    exact hpres.2.2.1
  · rw [hres]
    exact hmp1
  · rw [hres]
    exact hpres.2.2.2.1
  · intro h2
    rw [hres]
    rw [chainFail_of_live _ _ h2]
    exact ⟨rfl, by decide⟩

/-- Request where a JSON body already set the content type before a file
write is attempted without multipart. -/
def jsonThenFileReq : Request :=
  (freshRequest.withJSON (.ok "42")).withFile "a" "f.png" (.ok "data")

/-- Counterexample to C9 as stated: with a conflicting prior content type,
the failure recorded by the sticky chain is the earlier type conflict and
its message does not name `WithMultipart`. -/
theorem withFile_without_multipart_counterexample :
    (freshRequest.withJSON (.ok "42")).multipart = none ∧
    jsonThenFileReq.chain.failed = true ∧
    strContainsSub jsonThenFileReq.chain.message "WithMultipart" = false := by
  decide

/-- Witness for C9's amended theorem at a concrete input. -/
theorem withFile_without_multipart_witness :
    freshRequest.chain.failed = false ∧ freshRequest.multipart = none ∧
    FileWithoutMultipartOutcome freshRequest "avatar" "john.png" (.ok "png-bytes") :=
  ⟨by decide, by decide,
    withFile_without_multipart freshRequest "avatar" "john.png" (.ok "png-bytes")
      (by decide) (by decide)⟩

lemma canonCT : canonicalHeaderKey "Content-Type" = "Content-Type" := by decide

lemma headerFind_hSet (h : Header) (k : String) (vs : List String) :
    headerFind (Header.hSet h k vs) k = vs := by
  induction h with
  | nil => simp [Header.hSet, headerFind]
  | cons e rest ih =>
      obtain ⟨k', l⟩ := e
      by_cases hk : k' = k
      · subst hk
        simp [Header.hSet, headerFind]
      · have hbeq : (k' == k) = false := by simp [hk]
        simp [Header.hSet, headerFind, hbeq, ih]

lemma encodeRequest_plain (r : Request) (hlive : r.chain.failed = false)
    (hmp : r.multipart = none) (hform : r.form = none) :
    (r.encodeRequest).1 = true ∧
    (r.encodeRequest).2.chain = r.chain ∧
    (r.encodeRequest).2.bodySetter = r.bodySetter ∧
    (r.encodeRequest).2.wsUpgrade = r.wsUpgrade ∧
    (r.encodeRequest).2.http.body = r.http.body ∧
    (r.encodeRequest).2.http.contentLength = r.http.contentLength := by
  unfold Request.encodeRequest
  cases hq : r.query <;> simp [hlive, hmp, hform, hq]

lemma encodeRequest_form (r : Request) (f : Values) (hlive : r.chain.failed = false)
    (hmp : r.multipart = none) (hform : r.form = some f)
    (hown : r.bodySetter ≠ "") :
    (r.encodeRequest).1 = true ∧
    (r.encodeRequest).2.chain
      = r.chain.fail (bodyConflictMsg r.bodySetter "WithForm or WithFormField") ∧
    (r.encodeRequest).2.bodySetter = r.bodySetter ∧
    (r.encodeRequest).2.wsUpgrade = r.wsUpgrade := by
  unfold Request.encodeRequest Request.setBody
  cases hq : r.query <;> simp [hlive, hmp, hform, hq, hown]

lemma encodeRequest_multipart (r : Request) (m : MultipartState)
    (hlive : r.chain.failed = false) (hmp : r.multipart = some m) :
    (r.encodeRequest).1 = true ∧
    (r.encodeRequest).2.chain = r.chain ∧
    (r.encodeRequest).2.multipart = some { m with closed := true } ∧
    (r.encodeRequest).2.http.body = some .formbufRef ∧
    (r.encodeRequest).2.http.contentLength
      = (MultipartState.render { m with closed := true }).utf8ByteSize ∧
    (r.encodeRequest).2.bodySetter = "Expect" ∧
    (r.encodeRequest).2.wsUpgrade = r.wsUpgrade ∧
    (r.forceType = false →
      (r.encodeRequest).2.http.header.hGetAll "Content-Type"
        = [formDataContentType m.boundary] ∧
      (r.encodeRequest).2.typeSetter = "Expect") ∧
    (r.forceType = true →
      (r.encodeRequest).2.http.header = r.http.header ∧
      (r.encodeRequest).2.typeSetter = r.typeSetter) := by
  unfold Request.encodeRequest Request.setType Request.setBody
  cases hq : r.query <;> by_cases hft : r.forceType <;>
    simp [hlive, hmp, hq, hft, Header.hGetAll, Header.hAdd, canonCT, headerFind_hSet]

lemma encodeWs_of_failed (r : Request) (h : r.chain.failed = true) :
    r.encodeWebsocketRequest = (false, r) := by
  unfold Request.encodeWebsocketRequest
  simp [h]

lemma encodeWs_of_body (r : Request) (hlive : r.chain.failed = false)
    (hbody : r.bodySetter ≠ "") :
    r.encodeWebsocketRequest
      = (false, { r with chain := r.chain.fail (wsBodyMsg r.bodySetter) }) := by
  unfold Request.encodeWebsocketRequest
  simp [hlive, hbody]

lemma roundTrip_wsEncodeFail (r : Request) (t : Transport) (r1 r2 : Request)
    (hE : r.encodeRequest = (true, r1)) (hws1 : r1.wsUpgrade = true)
    (hW : r1.encodeWebsocketRequest = (false, r2)) :
    r.roundTrip t = ⟨r2, none, none, false, false⟩ := by
  unfold Request.roundTrip
  rw [hE]
  simp [hws1, hW]

/-- Conclusion of executing a websocket-upgraded request that owns a body. -/
def WsBodyConflictOutcome (r : Request) (t : Transport) : Prop :=
  ((r.roundTrip t).response = none) ∧
  ((r.roundTrip t).wsConn = none) ∧
  ((r.roundTrip t).httpInvoked = false) ∧
  ((r.roundTrip t).dialInvoked = false) ∧
  ((r.roundTrip t).request.chain.failed = true) ∧
  (r.multipart = none → r.form = none →
    (r.roundTrip t).request.chain.message = wsBodyMsg r.bodySetter ∧
    (∃ pre post, wsBodyMsg r.bodySetter = pre ++ r.bodySetter ++ post) ∧
    (∃ pre post, wsBodyMsg r.bodySetter = pre ++ "WithWebsocketUpgrade" ++ post))

/-- C4 (amended): executing a websocket-upgraded request whose body slot is
owned always fails during the encode phase — no response is produced and
neither the client nor the dialer collaborator is invoked; when the chain
is still live at the websocket-encode step (in particular when no pending
plain form overwrote the body slot during encoding), the failure message
cites the body setter and the websocket upgrade. -/
theorem ws_upgrade_body_encode_failure (r : Request) (t : Transport)
    (hlive : r.chain.failed = false) (hws : r.wsUpgrade = true)
    (hbody : r.bodySetter ≠ "") : WsBodyConflictOutcome r t := by
  unfold WsBodyConflictOutcome
  rcases hmp : r.multipart with _ | m
  · rcases hform : r.form with _ | f
    · obtain ⟨he1, hch, hbs, hwsu, _, _⟩ := encodeRequest_plain r hlive hmp hform
      rcases hE : r.encodeRequest with ⟨ok, r1⟩
      rw [hE] at he1 hch hbs hwsu
      subst he1
      have hbs1 : r1.bodySetter ≠ "" := by rw [hbs]; exact hbody
      have hlive1 : r1.chain.failed = false := by rw [hch]; exact hlive
      have hws1 : r1.wsUpgrade = true := by rw [hwsu]; exact hws
      have hW := encodeWs_of_body r1 hlive1 hbs1
      rw [roundTrip_wsEncodeFail r t r1 _ hE hws1 hW]
      refine ⟨rfl, rfl, rfl, rfl, chainFail_failed _ _, ?_⟩
      intro _ _
      have hmsg : (r1.chain.fail (wsBodyMsg r1.bodySetter)).message
          = wsBodyMsg r.bodySetter := by
        rw [hbs, hch, chainFail_of_live r.chain _ hlive]
      refine ⟨hmsg, ?_, ?_⟩
      · exact ⟨"\nwebocket request can not have body:\n  body set by ",
          "\n  webocket enabled by WithWebsocketUpgrade",
          by simp [wsBodyMsg, String.append_assoc]⟩
      · refine ⟨"\nwebocket request can not have body:\n  body set by "
            ++ r.bodySetter ++ "\n  webocket enabled by ", "", ?_⟩
        have hlit : ("\n  webocket enabled by " ++ "WithWebsocketUpgrade" : String)
            = "\n  webocket enabled by WithWebsocketUpgrade" := by decide
        simp [wsBodyMsg, String.append_assoc, hlit]
    · obtain ⟨he1, hch, hbs, hwsu⟩ := encodeRequest_form r f hlive hmp hform hbody
      rcases hE : r.encodeRequest with ⟨ok, r1⟩
      rw [hE] at he1 hch hbs hwsu
      subst he1
      have hf1 : r1.chain.failed = true := by
        rw [hch]
        exact chainFail_failed _ _
      have hws1 : r1.wsUpgrade = true := by rw [hwsu]; exact hws
      have hW := encodeWs_of_failed r1 hf1
      rw [roundTrip_wsEncodeFail r t r1 r1 hE hws1 hW]
      refine ⟨rfl, rfl, rfl, rfl, hf1, ?_⟩
      intro _ hfn
      exact absurd hfn (by simp)
  · obtain ⟨he1, hch, hclo, hbo, hcl, hbs, hwsu, hun, hfo⟩ :=
      encodeRequest_multipart r m hlive hmp
    rcases hE : r.encodeRequest with ⟨ok, r1⟩
    rw [hE] at he1 hch hbs hwsu
    subst he1
    have hbs1 : r1.bodySetter ≠ "" := by rw [hbs]; decide
    have hlive1 : r1.chain.failed = false := by rw [hch]; exact hlive
    have hws1 : r1.wsUpgrade = true := by rw [hwsu]; exact hws
    have hW := encodeWs_of_body r1 hlive1 hbs1
    rw [roundTrip_wsEncodeFail r t r1 _ hE hws1 hW]
    refine ⟨rfl, rfl, rfl, rfl, chainFail_failed _ _, ?_⟩
    intro hmpn
    exact absurd hmpn (by simp)

/-- Websocket-upgraded request whose body comes from `WithChunked` while a
plain form field is also pending. -/
def wsCornerReq : Request :=
  ((freshRequest.withChunked (some "x")).withFormField "a" "1").withWebsocketUpgrade

/-- Counterexample to C4 as stated: with a pending plain form, the encode
phase records the form/body conflict first, so execution fails at encode
time but the surfaced message does not cite the websocket upgrade. -/
theorem ws_upgrade_body_encode_failure_counterexample :
    wsCornerReq.chain.failed = false ∧
    wsCornerReq.wsUpgrade = true ∧
    wsCornerReq.bodySetter = "WithChunked" ∧
    (wsCornerReq.roundTrip plainTransport).request.chain.failed = true ∧
    (wsCornerReq.roundTrip plainTransport).response = none ∧
    (wsCornerReq.roundTrip plainTransport).dialInvoked = false ∧
    strContainsSub (wsCornerReq.roundTrip plainTransport).request.chain.message
      "WithWebsocketUpgrade" = false := by
  decide

/-- Websocket-upgraded request with a plain text body and nothing else. -/
def wsTextReq : Request := (freshRequest.withText "hi").withWebsocketUpgrade

/-- Witness for C4's amended theorem at a concrete input. -/
theorem ws_upgrade_body_encode_failure_witness :
    wsTextReq.chain.failed = false ∧ wsTextReq.wsUpgrade = true ∧
    wsTextReq.bodySetter ≠ "" ∧
    WsBodyConflictOutcome wsTextReq plainTransport :=
  ⟨by decide, by decide, by decide,
    ws_upgrade_body_encode_failure wsTextReq plainTransport
      (by decide) (by decide) (by decide)⟩

lemma setBody_multipart (r : Request) (s : String) (rd : Option BodyVal)
    (len : Int) (ov : Bool) : (r.setBody s rd len ov).multipart = r.multipart := by
  unfold Request.setBody
  split
  · simp
  · split
    · simp
    · cases rd <;> simp

lemma setType_multipart (r : Request) (s ty : String) (ov : Bool) :
    (r.setType s ty ov).multipart = r.multipart :=
  (setType_preserves r s ty ov).1

lemma withFile_preserves_open (r0 : Request) (k p : String)
    (c : Except String String) (m1 : MultipartState)
    (hopen : ∀ m0, r0.multipart = some m0 → m0.closed = false)
    (h1 : (r0.withFile k p c).multipart = some m1) : m1.closed = false := by
  unfold Request.withFile at h1
  cases hfb : r0.chain.failed with
  | true =>
      simp [hfb] at h1
      exact hopen m1 h1
  | false =>
      have hm1 := setType_multipart r0 "WithFile" "multipart/form-data" false
      rcases hm : r0.multipart with _ | m0
      · rw [hm] at hm1
        simp [hfb, hm1] at h1
      · rw [hm] at hm1
        cases c <;> simp [hfb, hm1] at h1 <;> subst h1 <;> simpa using hopen m0 hm

lemma withHeader_multipart (r : Request) (k v : String) :
    (r.withHeader k v).multipart = r.multipart := by
  unfold Request.withHeader
  simp [apply_ite Request.multipart]

lemma foldl_withHeader_multipart (hs : List (String × String)) : ∀ r : Request,
    (List.foldl (fun acc kv => acc.withHeader kv.1 kv.2) r hs).multipart
      = r.multipart := by
  induction hs with
  | nil => intro r; rfl
  | cons e rest ih =>
      intro r
      rw [List.foldl_cons, ih, withHeader_multipart]

lemma mutation_preserves_open (mu : Mutation) (r0 : Request) (m1 : MultipartState)
    (hopen : ∀ m0, r0.multipart = some m0 → m0.closed = false)
    (h1 : (applyMutation r0 mu).multipart = some m1) : m1.closed = false := by
  cases hfb : r0.chain.failed with
  | true =>
      have hmp : (applyMutation r0 mu).multipart = r0.multipart := by
        cases mu <;>
          simp [applyMutation, Mutation.isMatcherCall,
            Request.withMatcher, Request.withWebsocketUpgrade, Request.withQuery,
            Request.withQueryObject, Request.withQueryString, Request.withHeader,
            Request.withHeaders, Request.withCookie, Request.withBasicAuth,
            Request.withProto, Request.withChunked, Request.withBytes,
            Request.withText, Request.withJSON, Request.withJSONPretty,
            Request.withForm, Request.withFormField, Request.withFile,
            Request.withFileBytes, Request.withMultipart, Request.withPath, hfb]
      rw [hmp] at h1
      exact hopen m1 h1
  | false =>
      cases mu with
      | mWithMatcher m =>
          simp [applyMutation, Request.withMatcher] at h1
          exact hopen m1 h1
      | mWithWebsocketUpgrade =>
          simp [applyMutation, Request.withWebsocketUpgrade, hfb] at h1
          exact hopen m1 h1
      | mWithQuery k v =>
          simp [applyMutation, Request.withQuery, hfb] at h1
          exact hopen m1 h1
      | mWithQueryObject e =>
          cases e <;> simp [applyMutation, Request.withQueryObject, hfb] at h1 <;>
            exact hopen m1 h1
      | mWithQueryString s =>
          rcases hpq : parseQuery s with _ | v <;>
            simp [applyMutation, Request.withQueryString, hfb, hpq] at h1 <;>
            exact hopen m1 h1
      | mWithHeader k v =>
          simp [applyMutation, Request.withHeader, hfb,
            apply_ite Request.multipart] at h1
          exact hopen m1 h1
      | mWithHeaders hs =>
          simp [applyMutation, Request.withHeaders, hfb,
            foldl_withHeader_multipart] at h1
          exact hopen m1 h1
      | mWithCookie k v =>
          simp [applyMutation, Request.withCookie, hfb] at h1
          exact hopen m1 h1
      | mWithBasicAuth u p =>
          simp [applyMutation, Request.withBasicAuth, hfb] at h1
          exact hopen m1 h1
      | mWithProto p =>
          rcases hpv : parseHTTPVersion p with _ | mm <;>
          · simp [applyMutation, Request.withProto, hfb, hpv] at h1
            exact hopen m1 h1
      | mWithChunked rd =>
          simp [applyMutation, Request.withChunked, hfb,
            apply_ite Request.multipart, setBody_multipart] at h1
          exact hopen m1 h1
      | mWithBytes b =>
          cases b <;>
            simp [applyMutation, Request.withBytes, hfb, setBody_multipart] at h1 <;>
            exact hopen m1 h1
      | mWithText s =>
          simp [applyMutation, Request.withText, hfb, setBody_multipart,
            setType_multipart] at h1
          exact hopen m1 h1
      | mWithJSON e =>
          cases e <;>
            simp [applyMutation, Request.withJSON, hfb, setBody_multipart,
              setType_multipart] at h1 <;>
            exact hopen m1 h1
      | mWithJSONPretty e =>
          cases e <;>
            simp [applyMutation, Request.withJSONPretty, hfb, setBody_multipart,
              setType_multipart] at h1 <;>
            exact hopen m1 h1
      | mWithForm e =>
          have hm1 := setType_multipart r0 "WithForm" "multipart/form-data" false
          cases e with
          | error msg =>
              simp [applyMutation, Request.withForm, hfb] at h1
              exact hopen m1 h1
          | ok f =>
              rcases hm : r0.multipart with _ | m0
              · have hm2 := setType_multipart r0 "WithForm"
                  "application/x-www-form-urlencoded" false
                rw [hm] at hm2
                simp [applyMutation, Request.withForm, hfb, hm, hm2] at h1
              · rw [hm] at hm1
                simp [applyMutation, Request.withForm, hfb, hm] at h1
                subst h1
                simpa using hopen m0 hm
      | mWithFormField k v =>
          rcases hm : r0.multipart with _ | m0
          · have hm2 := setType_multipart r0 "WithFormField"
              "application/x-www-form-urlencoded" false
            rw [hm] at hm2
            simp [applyMutation, Request.withFormField, hfb, hm, hm2] at h1
          · simp [applyMutation, Request.withFormField, hfb, hm] at h1
            subst h1
            simpa using hopen m0 hm
      | mWithFile k p c =>
          exact withFile_preserves_open r0 k p c m1 hopen h1
      | mWithFileBytes k p d =>
          unfold applyMutation Request.withFileBytes at h1
          rw [hfb] at h1
          simp only [Bool.false_eq_true, if_false] at h1
          exact withFile_preserves_open r0 k p (.ok d) m1 hopen h1
      | mWithMultipart b =>
          have hm1 := setType_multipart r0 "WithMultipart" "multipart/form-data" false
          rcases hm : r0.multipart with _ | m0
          · rw [hm] at hm1
            simp [applyMutation, Request.withMultipart, hfb, hm1,
              setBody_multipart] at h1
            subst h1
            rfl
          · rw [hm] at hm1
            simp [applyMutation, Request.withMultipart, hfb, hm1] at h1
            exact hopen m1 (by rw [← h1, hm])
      | mWithPath k v =>
          unfold applyMutation Request.withPath at h1
          rcases hsc : scanTpl r0.path.toList with _ | segs
          · rw [hsc] at h1
            simp [hfb] at h1
            exact hopen m1 h1
          · rw [hsc] at h1
            simp [hfb, apply_ite Request.multipart] at h1
            exact hopen m1 h1

/-- Conclusion of multipart finalization during `encodeRequest`. -/
def MultipartFinalizeOutcome (r : Request) (m : MultipartState) : Prop :=
  ((r.encodeRequest).1 = true) ∧
  ((r.encodeRequest).2.multipart = some { m with closed := true }) ∧
  ((r.encodeRequest).2.http.contentLength
    = ((MultipartState.render { m with closed := true }).utf8ByteSize : Int)) ∧
  ((r.encodeRequest).2.http.body = some .formbufRef) ∧
  ((r.encodeRequest).2.bodySetter = "Expect") ∧
  ((r.encodeRequest).2.chain = r.chain) ∧
  (r.forceType = false →
    (r.encodeRequest).2.http.header.hGetAll "Content-Type"
      = [formDataContentType m.boundary] ∧
    (r.encodeRequest).2.typeSetter = "Expect" ∧
    formDataContentType m.boundary
      = "multipart/form-data; boundary=" ++ m.boundary) ∧
  (r.forceType = true →
    (r.encodeRequest).2.http.header = r.http.header ∧
    (r.encodeRequest).2.typeSetter = r.typeSetter) ∧
  (∀ (mu : Mutation) (r0 : Request) (m1 : MultipartState),
    (∀ m0, r0.multipart = some m0 → m0.closed = false) →
    (applyMutation r0 mu).multipart = some m1 → m1.closed = false)

/-- C8 (amended): multipart finalization happens during encoding and never
through a user-facing call (no mutating operation ever closes an open
writer): the writer is closed, the buffer's byte length becomes the content
length, the buffer claims the body slot under the finalization label, and —
unless an explicit header call set the forced flag — the Content-Type is
overwritten through the finalization override path (recording no failure)
to the writer-generated multipart/form-data value including its boundary
parameter; with the forced flag set, the explicit header value is kept. -/
theorem multipart_finalized_once_at_encode (r : Request) (m : MultipartState)
    (hlive : r.chain.failed = false) (hmp : r.multipart = some m)
    (hopen : m.closed = false) : MultipartFinalizeOutcome r m := by
  obtain ⟨he1, hch, hclo, hbo, hcl, hbs, _, hun, hfo⟩ :=
    encodeRequest_multipart r m hlive hmp
  exact ⟨he1, hclo, hcl, hbo, hbs, hch,
    fun hft => ⟨(hun hft).1, (hun hft).2, rfl⟩, hfo,
    fun mu r0 m1 ho h1 => mutation_preserves_open mu r0 m1 ho h1⟩

/-- Multipart request followed by an explicit (forcing) Content-Type call. -/
def forcedMultipartReq : Request :=
  (freshRequest.withMultipart "XBoundary").withHeader "Content-Type"
    "application/octet-stream"

/-- Counterexample to C8 as stated: with the forced flag set by an explicit
header call, encoding keeps the explicit Content-Type — it is not
overwritten to the writer-generated multipart value. -/
theorem multipart_finalized_once_at_encode_counterexample :
    forcedMultipartReq.chain.failed = false ∧
    forcedMultipartReq.multipart
      = some { boundary := "XBoundary", parts := [], closed := false } ∧
    (forcedMultipartReq.encodeRequest).2.http.header.hGetAll "Content-Type"
      = ["application/octet-stream"] ∧
    formDataContentType "XBoundary" = "multipart/form-data; boundary=XBoundary" ∧
    ["application/octet-stream"] ≠ [formDataContentType "XBoundary"] := by
  decide

/-- Open multipart request carrying one form field. -/
def openMultipartReq : Request :=
  (freshRequest.withMultipart "B1").withFormField "a" "1"

/-- Witness for C8's amended theorem at a concrete input. -/
theorem multipart_finalized_once_at_encode_witness :
    openMultipartReq.chain.failed = false ∧
    openMultipartReq.multipart
      = some { boundary := "B1", parts := [.field "a" "1"], closed := false } ∧
    MultipartFinalizeOutcome openMultipartReq
      { boundary := "B1", parts := [.field "a" "1"], closed := false } :=
  ⟨by decide, by decide,
    multipart_finalized_once_at_encode openMultipartReq
      { boundary := "B1", parts := [.field "a" "1"], closed := false }
      (by decide) (by decide) (by decide)⟩

/-- Placeholder names of a scanned template, in order of appearance. -/
def phNames : List Seg → List String
  | [] => []
  | .lit _ :: rest => phNames rest
  | .ph k :: rest => k :: phNames rest

/-- Number of placeholders in a scanned template. -/
def phCount (segs : List Seg) : Nat := (phNames segs).length

/-- Modelled from the spec: rendering of a template where the first `k`
placeholders in order of first appearance are replaced by the positional
arguments in order and every remaining placeholder is left as
`\x7bname\x7d` (spec section 8, first testable property). -/
def specPathRender (args : List String) : List Seg → Nat → String
  | [], _ => ""
  | .lit ch :: rest, i => String.mk [ch] ++ specPathRender args rest i
  | .ph k :: rest, i =>
      (if h : i < args.length then args.get ⟨i, h⟩ else "\x7b" ++ k ++ "\x7d")
        ++ specPathRender args rest (i + 1)

lemma interpSegs_all_some (method : String) (vals : List String) :
    ∀ (segs : List Seg) (n : Nat) (c : Chain),
      interpSegs method (vals.map some) segs n c = (specPathRender vals segs n, c) := by
  intro segs
  induction segs with
  | nil => intro n c; rfl
  | cons s rest ih =>
      intro n c
      cases s with
      | lit ch => simp [interpSegs, specPathRender, ih]
      | ph k =>
          by_cases h : n < vals.length
          · have h' : n < (vals.map some).length := by simpa using h
            simp [interpSegs, specPathRender, h, h', ih]
          · have h' : ¬ n < (vals.map some).length := by simpa using h
            simp [interpSegs, specPathRender, h, h', ih]

lemma interpSegs_failed_mono (method : String) (args : List (Option String)) :
    ∀ (segs : List Seg) (n : Nat) (c : Chain), c.failed = true →
      (interpSegs method args segs n c).2.failed = true := by
  intro segs
  induction segs with
  | nil => intro n c h; exact h
  | cons s rest ih =>
      intro n c h
      cases s with
      | lit ch =>
          rcases hrec : interpSegs method args rest n c with ⟨t, c2⟩
          have h2 := ih n c h
          rw [hrec] at h2
          simp [interpSegs, hrec]
          exact h2
      | ph k =>
          by_cases hlt : n < args.length
          · rcases hg : args.get ⟨n, hlt⟩ with _ | v
            · rw [List.get_eq_getElem] at hg
              rcases hrec : interpSegs method args rest (n + 1)
                  (c.fail (nilPathArgMsg method)) with ⟨t, c2⟩
              have h2 := ih (n + 1) (c.fail (nilPathArgMsg method))
                (by rw [chainFail_of_failed c _ h]; exact h)
              rw [hrec] at h2
              simp [interpSegs, hlt, hg, hrec]
              exact h2
            · rw [List.get_eq_getElem] at hg
              rcases hrec : interpSegs method args rest (n + 1) c with ⟨t, c2⟩
              have h2 := ih (n + 1) c h
              rw [hrec] at h2
              simp [interpSegs, hlt, hg, hrec]
              exact h2
          · rcases hrec : interpSegs method args rest (n + 1) c with ⟨t, c2⟩
            have h2 := ih (n + 1) c h
            rw [hrec] at h2
            simp [interpSegs, hlt, hrec]
            exact h2

lemma interpSegs_nil_arg (method : String) (args : List (Option String)) :
    ∀ (segs : List Seg) (n : Nat) (c : Chain) (i : Nat) (h : i < args.length),
      n ≤ i → i < n + phCount segs → args.get ⟨i, h⟩ = none →
      (interpSegs method args segs n c).2.failed = true := by
  intro segs
  induction segs with
  | nil =>
      intro n c i h hni hcount _
      simp [phCount, phNames] at hcount
      omega
  | cons s rest ih =>
      intro n c i h hni hcount hnone
      cases s with
      | lit ch =>
          rcases hrec : interpSegs method args rest n c with ⟨t, c2⟩
          have h2 := ih n c i h hni (by simpa [phCount, phNames] using hcount) hnone
          rw [hrec] at h2
          simp [interpSegs, hrec]
          exact h2
      | ph k =>
          rw [List.get_eq_getElem] at hnone
          have hcount' : i < n + 1 + phCount rest := by
            simp only [phCount, phNames, List.length_cons] at hcount ⊢
            omega
          have hnlt : n < args.length := by omega
          rcases Nat.eq_or_lt_of_le hni with heq | hlt
          · subst heq
            rcases hrec : interpSegs method args rest (n + 1)
                (c.fail (nilPathArgMsg method)) with ⟨t, c2⟩
            have h2 := interpSegs_failed_mono method args rest (n + 1)
              (c.fail (nilPathArgMsg method)) (chainFail_failed c _)
            rw [hrec] at h2
            simp [interpSegs, hnlt, hnone, hrec]
            exact h2
          · rcases hg : args.get ⟨n, hnlt⟩ with _ | v
            · rw [List.get_eq_getElem] at hg
              rcases hrec : interpSegs method args rest (n + 1)
                  (c.fail (nilPathArgMsg method)) with ⟨t, c2⟩
              have h2 := interpSegs_failed_mono method args rest (n + 1)
                (c.fail (nilPathArgMsg method)) (chainFail_failed c _)
              rw [hrec] at h2
              simp [interpSegs, hnlt, hg, hrec]
              exact h2
            · rw [List.get_eq_getElem] at hg
              rcases hrec : interpSegs method args rest (n + 1) c with ⟨t, c2⟩
              have h2 := ih (n + 1) c i h hlt hcount'
                (by rw [List.get_eq_getElem]; exact hnone)
              rw [hrec] at h2
              simp [interpSegs, hnlt, hg, hrec]
              exact h2

/-- Conclusion of positional path interpolation in `NewRequest`. -/
def PositionalPathOutcome (method basePath tpl : String) (segs : List Seg)
    (vals : List String) : Prop :=
  ((newRequest method basePath tpl (vals.map some)).path
    = specPathRender vals segs 0 ∧
   (newRequest method basePath tpl (vals.map some)).chain = freshChain) ∧
  (∀ (args : List (Option String)) (i : Nat) (h : i < args.length),
    i < phCount segs → args.get ⟨i, h⟩ = none →
    (newRequest method basePath tpl args).chain.failed = true)

/-- C6: for a template whose placeholders (pairwise distinct) are `p1..pn`
and `k ≤ n` positional arguments, `NewRequest` replaces the first `k`
placeholders in order of first appearance by the arguments in order, leaves
every remaining placeholder as `\x7bname\x7d`, and records no failure;
supplying a nil positional argument where a placeholder expects one records
a failure on the chain. -/
theorem newRequest_positional_interpolation (method basePath tpl : String)
    (segs : List Seg) (vals : List String)
    (hparse : scanTpl tpl.toList = some segs)
    (hdistinct : (phNames segs).Nodup)
    (hk : vals.length ≤ phCount segs) :
    PositionalPathOutcome method basePath tpl segs vals := by
  constructor
  · have heq := interpSegs_all_some method vals segs 0 freshChain
    unfold newRequest
    rw [hparse]
    simp [heq]
  · intro args i h hicount hnone
    unfold newRequest
    rw [hparse]
    rcases hI : interpSegs method args segs 0 freshChain with ⟨p, c⟩
    have h2 := interpSegs_nil_arg method args segs 0 freshChain i h
      (Nat.zero_le i) (by omega) hnone
    rw [hI] at h2
    simp [hI]
    exact h2

/-- Scanned form of the witness template `/u/\x7bid\x7d/\x7brepo\x7d`. -/
def sampleSegs : List Seg :=
  [.lit '/', .lit 'u', .lit '/', .ph "id", .lit '/', .ph "repo"]

/-- Witness for C6 at a concrete template: one positional argument fills
the first placeholder, the second stays, and a nil argument fails. -/
theorem newRequest_positional_interpolation_witness :
    scanTpl "/u/\x7bid\x7d/\x7brepo\x7d".toList = some sampleSegs ∧
    (phNames sampleSegs).Nodup ∧
    specPathRender ["42"] sampleSegs 0 = "/u/42/\x7brepo\x7d" ∧
    PositionalPathOutcome "GET" "" "/u/\x7bid\x7d/\x7brepo\x7d" sampleSegs ["42"] :=
  ⟨by decide, by decide, by decide,
    newRequest_positional_interpolation "GET" "" "/u/\x7bid\x7d/\x7brepo\x7d"
      sampleSegs ["42"] (by decide) (by decide) (by decide)⟩

lemma charListLe_trans : ∀ (a b c : List Char), charListLe a b = true →
    charListLe b c = true → charListLe a c = true
  | [], _, _, _, _ => by simp [charListLe]
  | _ :: _, [], _, h1, _ => by simp [charListLe] at h1
  | _ :: _, _ :: _, [], _, h2 => by simp [charListLe] at h2
  | x :: xs, y :: ys, z :: zs, h1, h2 => by
      simp only [charListLe] at h1 h2 ⊢
      by_cases hxy : x.toNat < y.toNat
      · by_cases hyz : y.toNat < z.toNat
        · have hlt : x.toNat < z.toNat := by omega
          simp [hlt]
        · by_cases hzy : z.toNat < y.toNat
          · simp [hyz, hzy] at h2
          · have hlt : x.toNat < z.toNat := by omega
            simp [hlt]
      · by_cases hyx : y.toNat < x.toNat
        · simp [hxy, hyx] at h1
        · by_cases hyz : y.toNat < z.toNat
          · have hlt : x.toNat < z.toNat := by omega
            simp [hlt]
          · by_cases hzy : z.toNat < y.toNat
            · simp [hyz, hzy] at h2
            · have hxz : ¬ x.toNat < z.toNat := by omega
              have hzx : ¬ z.toNat < x.toNat := by omega
              simp [hxy, hyx] at h1
              simp [hyz, hzy] at h2
              simp [hxz, hzx]
              exact charListLe_trans xs ys zs h1 h2

lemma charListLe_total : ∀ (a b : List Char),
    charListLe a b = true ∨ charListLe b a = true
  | [], _ => Or.inl (by simp [charListLe])
  | _ :: _, [] => Or.inr (by simp [charListLe])
  | x :: xs, y :: ys => by
      by_cases hxy : x.toNat < y.toNat
      · exact Or.inl (by simp [charListLe, hxy])
      · by_cases hyx : y.toNat < x.toNat
        · exact Or.inr (by simp [charListLe, hyx])
        · rcases charListLe_total xs ys with h | h
          · exact Or.inl (by simp [charListLe, hxy, hyx, h])
          · exact Or.inr (by simp [charListLe, hxy, hyx, h])

lemma strLe_trans (a b c : String) (h1 : strLe a b = true)
    (h2 : strLe b c = true) : strLe a c = true :=
  charListLe_trans a.toList b.toList c.toList h1 h2

lemma strLe_total (a b : String) : strLe a b = true ∨ strLe b a = true :=
  charListLe_total a.toList b.toList

lemma mem_sortedInsert (x z : String) : ∀ (l : List String),
    z ∈ sortedInsert x l → z = x ∨ z ∈ l
  | [] => by simp [sortedInsert]
  | y :: ys => by
      simp only [sortedInsert]
      split
      · intro h
        simpa using h
      · intro h
        rcases List.mem_cons.mp h with h0 | h0
        · exact Or.inr (h0 ▸ List.mem_cons_self y ys)
        · rcases mem_sortedInsert x z ys h0 with h1 | h1
          · exact Or.inl h1
          · exact Or.inr (List.mem_cons_of_mem y h1)

lemma sortedInsert_sorted (x : String) : ∀ (l : List String),
    l.Pairwise (fun a b => strLe a b = true) →
    (sortedInsert x l).Pairwise (fun a b => strLe a b = true)
  | [], _ => by simp [sortedInsert]
  | y :: ys, h => by
      rw [List.pairwise_cons] at h
      obtain ⟨hy, hys⟩ := h
      simp only [sortedInsert]
      split
      · rename_i hxy
        rw [List.pairwise_cons]
        refine ⟨?_, ?_⟩
        · intro b hb
          rcases List.mem_cons.mp hb with rfl | hb'
          · exact hxy
          · exact strLe_trans x y b hxy (hy b hb')
        · rw [List.pairwise_cons]
          exact ⟨hy, hys⟩
      · rename_i hxy
        have hyx : strLe y x = true := by
          rcases strLe_total x y with h' | h'
          · exact absurd h' hxy
          · exact h'
        rw [List.pairwise_cons]
        refine ⟨?_, sortedInsert_sorted x ys hys⟩
        intro b hb
        rcases mem_sortedInsert x b ys hb with rfl | hb'
        · exact hyx
        · exact hy b hb'

lemma sortStrings_sorted : ∀ (l : List String),
    (sortStrings l).Pairwise (fun a b => strLe a b = true)
  | [] => by simp [sortStrings]
  | x :: xs => by
      simp only [sortStrings]
      exact sortedInsert_sorted x (sortStrings xs) (sortStrings_sorted xs)

lemma lookup_add_self (vs : Values) (k v : String) :
    (vs.add k v).lookup k = vs.lookup k ++ [v] := by
  induction vs with
  | nil => simp [Values.add, Values.lookup]
  | cons e rest ih =>
      obtain ⟨k0, l⟩ := e
      by_cases h0 : k0 = k
      · subst h0
        simp [Values.add, Values.lookup]
      · have hbeq : (k0 == k) = false := by simp [h0]
        simp [Values.add, Values.lookup, hbeq, ih]

lemma lookup_add_ne (vs : Values) (k v k' : String) (h : k' ≠ k) :
    (vs.add k v).lookup k' = vs.lookup k' := by
  induction vs with
  | nil =>
      have hbeq : (k == k') = false := by simp [Ne.symm h]
      simp [Values.add, Values.lookup, hbeq]
  | cons e rest ih =>
      obtain ⟨k0, l⟩ := e
      by_cases h0 : k0 = k
      · subst h0
        have hbeq : (k0 == k') = false := by simp [Ne.symm h]
        simp [Values.add, Values.lookup, hbeq]
      · have hbeq : (k0 == k) = false := by simp [h0]
        by_cases h1 : k0 = k'
        · subst h1
          simp [Values.add, Values.lookup, hbeq]
        · have hbeq1 : (k0 == k') = false := by simp [h1]
          simp [Values.add, Values.lookup, hbeq, hbeq1, ih]

lemma lookup_addAll_self (vs : Values) (k : String) (ws : List String) :
    (vs.addAll k ws).lookup k = vs.lookup k ++ ws := by
  induction vs with
  | nil => simp [Values.addAll, Values.lookup]
  | cons e rest ih =>
      obtain ⟨k0, l⟩ := e
      by_cases h0 : k0 = k
      · subst h0
        simp [Values.addAll, Values.lookup]
      · have hbeq : (k0 == k) = false := by simp [h0]
        simp [Values.addAll, Values.lookup, hbeq, ih]

lemma lookup_addAll_ne (vs : Values) (k : String) (ws : List String)
    (k' : String) (h : k' ≠ k) :
    (vs.addAll k ws).lookup k' = vs.lookup k' := by
  induction vs with
  | nil =>
      have hbeq : (k == k') = false := by simp [Ne.symm h]
      simp [Values.addAll, Values.lookup, hbeq]
  | cons e rest ih =>
      obtain ⟨k0, l⟩ := e
      by_cases h0 : k0 = k
      · subst h0
        have hbeq : (k0 == k') = false := by simp [Ne.symm h]
        simp [Values.addAll, Values.lookup, hbeq]
      · have hbeq : (k0 == k) = false := by simp [h0]
        by_cases h1 : k0 = k'
        · subst h1
          simp [Values.addAll, Values.lookup, hbeq]
        · have hbeq1 : (k0 == k') = false := by simp [h1]
          simp [Values.addAll, Values.lookup, hbeq, hbeq1, ih]

lemma lookup_eq_nil_of_not_mem (vs : Values) (k : String)
    (h : k ∉ vs.keys) : vs.lookup k = [] := by
  induction vs with
  | nil => simp [Values.lookup]
  | cons e rest ih =>
      obtain ⟨k0, l⟩ := e
      simp only [Values.keys, List.map_cons, List.mem_cons] at h
      push_neg at h
      have hbeq : (k0 == k) = false := by simp [Ne.symm h.1]
      have hrest : k ∉ Values.keys rest := by simpa [Values.keys] using h.2
      simp [Values.lookup, hbeq, ih hrest]

lemma lookup_merge (b : Values) : ∀ (a : Values) (k : String),
    (Values.keys b).Nodup → (a.merge b).lookup k = a.lookup k ++ b.lookup k := by
  induction b with
  | nil =>
      intro a k _
      simp [Values.merge, Values.lookup]
  | cons e rest ih =>
      obtain ⟨k0, ws⟩ := e
      intro a k hnd
      have hcons : Values.keys ((k0, ws) :: rest) = k0 :: Values.keys rest := rfl
      rw [hcons, List.nodup_cons] at hnd
      have hnd' : (Values.keys rest).Nodup := hnd.2
      have hk0 : k0 ∉ Values.keys rest := hnd.1
      have hmerge : (Values.merge a ((k0, ws) :: rest) : Values)
          = Values.merge (a.addAll k0 ws) rest := by
        simp [Values.merge]
      rw [hmerge]
      by_cases hkk : k = k0
      · subst hkk
        rw [ih (a.addAll k ws) k hnd', lookup_addAll_self,
          lookup_eq_nil_of_not_mem rest k hk0]
        simp [Values.lookup]
      · rw [ih (a.addAll k0 ws) k hnd', lookup_addAll_ne a k0 ws k hkk]
        have hbeq : (k0 == k) = false := by simp [Ne.symm hkk]
        simp [Values.lookup, hbeq]

lemma keys_add (vs : Values) (k v : String) :
    (vs.add k v).keys
      = if k ∈ vs.keys then vs.keys else vs.keys ++ [k] := by
  induction vs with
  | nil => simp [Values.add, Values.keys]
  | cons e rest ih =>
      obtain ⟨k0, l⟩ := e
      by_cases h0 : k0 = k
      · subst h0
        simp [Values.add, Values.keys]
      · have hbeq : (k0 == k) = false := by simp [h0]
        have hstep : Values.add ((k0, l) :: rest) k v
            = (k0, l) :: Values.add rest k v := by
          simp [Values.add, hbeq]
        rw [hstep]
        have hkeys : Values.keys ((k0, l) :: Values.add rest k v)
            = k0 :: Values.keys (Values.add rest k v) := rfl
        rw [hkeys, ih]
        have hconk : Values.keys ((k0, l) :: rest) = k0 :: Values.keys rest := rfl
        rw [hconk]
        by_cases hm : k ∈ Values.keys rest
        · simp [hm, Ne.symm h0]
        · simp [hm, Ne.symm h0]

lemma nodupKeys_add (vs : Values) (k v : String) (h : vs.keys.Nodup) :
    (vs.add k v).keys.Nodup := by
  rw [keys_add]
  by_cases hm : k ∈ vs.keys
  · simpa [hm] using h
  · simp only [hm, if_false]
    simp [List.nodup_append, h, hm]

lemma parseQueryChunks_nodup : ∀ (chunks : List (List Char)) (acc : Values),
    acc.keys.Nodup → ∀ vs, parseQueryChunks chunks acc = some vs →
    vs.keys.Nodup := by
  intro chunks
  induction chunks with
  | nil =>
      intro acc hacc vs h
      simp [parseQueryChunks] at h
      exact h ▸ hacc
  | cons chunk rest ih =>
      intro acc hacc vs h
      rw [parseQueryChunks] at h
      by_cases hempty : chunk.isEmpty = true
      · rw [if_pos hempty] at h
        exact ih acc hacc vs h
      · rw [if_neg hempty] at h
        rcases hk : queryUnescapeChars (splitKeyValue chunk).1 with _ | k'
        · simp [hk] at h
        · rcases hv : queryUnescapeChars (splitKeyValue chunk).2 with _ | v'
          · simp [hk, hv] at h
          · simp only [hk, hv] at h
            exact ih _ (nodupKeys_add acc (String.mk k') (String.mk v') hacc) vs h

lemma parseQuery_nodupKeys (s : String) (vs : Values)
    (h : parseQuery s = some vs) : vs.keys.Nodup :=
  parseQueryChunks_nodup (splitOnChar '&' s.toList) []
    (by simp [Values.keys]) vs h

lemma encodeRequest_rawQuery (r : Request) (q : Values)
    (hlive : r.chain.failed = false) (hq : r.query = some q) :
    (r.encodeRequest).2.http.rawQuery = q.encode := by
  unfold Request.encodeRequest Request.setType Request.setBody
  rcases hmp : r.multipart with _ | m <;> rcases hform : r.form with _ | f <;>
    by_cases hft : r.forceType <;>
      simp [hlive, hq, hmp, hform, hft,
        apply_ite (fun rr : Request => rr.http.rawQuery)]

/-- C7: all three query input modes append to the ordered multivalued query
mapping rather than replacing (repeated keys accumulate); the serialized
query string produced at encode time is the percent-encoded rendering with
keys in sorted order; and concretely `WithQuery("a",1)` followed by
`WithQueryString("b=2")` encodes to `a=1&b=2`. -/
theorem query_sources_accumulate :
    (∀ (r : Request) (k v : String), r.chain.failed = false →
      ((r.withQuery k v).query.getD []).lookup k
        = ((r.query.getD []).lookup k) ++ [v] ∧
      ∀ k', k' ≠ k →
        ((r.withQuery k v).query.getD []).lookup k'
          = (r.query.getD []).lookup k') ∧
    (∀ (r : Request) (s : String) (vs : Values), r.chain.failed = false →
      parseQuery s = some vs → ∀ k,
        ((r.withQueryString s).query.getD []).lookup k
          = (r.query.getD []).lookup k ++ vs.lookup k) ∧
    (∀ (r : Request) (q : Values), r.chain.failed = false →
      (Values.keys q).Nodup → ∀ k,
        ((r.withQueryObject (.ok q)).query.getD []).lookup k
          = (r.query.getD []).lookup k ++ q.lookup k) ∧
    (∀ vs : Values,
      (vs.encodeKeyOrder).Pairwise (fun a b => strLe a b = true)) ∧
    (∀ (r : Request) (q : Values), r.chain.failed = false → r.query = some q →
      (r.encodeRequest).2.http.rawQuery = q.encode) ∧
    ((((freshRequest.withQuery "a" "1").withQueryString
        "b=2").encodeRequest).2.http.rawQuery = "a=1&b=2") := by
  refine ⟨?_, ?_, ?_, ?_, ?_, ?_⟩
  · intro r k v hlive
    have hres : (r.withQuery k v).query = some ((r.query.getD []).add k v) := by
      unfold Request.withQuery
      simp [hlive]
    rw [hres]
    exact ⟨lookup_add_self _ _ _, fun k' hk' => lookup_add_ne _ _ _ _ hk'⟩
  · intro r s vs hlive hpq k
    have hres : (r.withQueryString s).query
        = some ((r.query.getD []).merge vs) := by
      unfold Request.withQueryString
      simp [hlive, hpq]
    rw [hres]
    exact lookup_merge vs (r.query.getD []) k (parseQuery_nodupKeys s vs hpq)
  · intro r q hlive hnd k
    have hres : (r.withQueryObject (.ok q)).query
        = some ((r.query.getD []).merge q) := by
      unfold Request.withQueryObject
      simp [hlive]
    rw [hres]
    exact lookup_merge q (r.query.getD []) k hnd
  · intro vs
    exact sortStrings_sorted vs.keys
  · intro r q hlive hq
    exact encodeRequest_rawQuery r q hlive hq
  · decide

/-- Witness for C7 at concrete inputs: the append clause and the
query-string clause instantiated on the concrete accumulation scenario. -/
theorem query_sources_accumulate_witness :
    (freshRequest.chain.failed = false ∧
      ((freshRequest.withQuery "a" "1").query.getD []).lookup "a"
        = ((freshRequest.query.getD []).lookup "a") ++ ["1"]) ∧
    ((freshRequest.withQuery "a" "1").chain.failed = false ∧
      parseQuery "b=2" = some [("b", ["2"])] ∧
      (((freshRequest.withQuery "a" "1").withQueryString "b=2").query.getD
          []).lookup "b"
        = ((freshRequest.withQuery "a" "1").query.getD []).lookup "b"
          ++ (Values.lookup [("b", ["2"])] "b")) :=
  ⟨⟨by decide,
    (query_sources_accumulate.1 freshRequest "a" "1" (by decide)).1⟩,
   ⟨by decide, by decide,
    query_sources_accumulate.2.1 (freshRequest.withQuery "a" "1") "b=2"
      [("b", ["2"])] (by decide) (by decide) "b"⟩⟩
